import Mathlib

/-!
Reconciler: SQL filter rendering and named-to-positional argument rewriting.

A shallow embedding of

* `pkg/db/postgresnamedargconversion.go` (`convertNamedToPositionalArgs`),
* `pkg/cluster/statussqlfilter.go` (the five concrete `statusSQLFilter`s),
* `pkg/scheduler/worker/worker.go` (`worker.run`),

followed by theorems about them.

Go strings are modelled by `String`; `interface{}` values by `Value`; a Go
`error` by its message; a run-time panic by `none` in `Option`. A call of
`worker.run` yields its error together with the calls it made to the
repository and to the invoker.
-/

namespace Reconciler

/-! ## Go library functions used by the sources -/

/-- Worker of `strReplace`: scans `s` from the left. The counter is the number
of characters of a match that are still to be skipped. -/
def replaceAux (old new : List Char) : Nat → List Char → List Char
  | 0, [] => if old = [] then new else []
  | _ + 1, [] => []
  | k + 1, _ :: s => replaceAux old new k s
  | 0, c :: s =>
    if old.isPrefixOf (c :: s) then
      if old = [] then new ++ c :: replaceAux old new 0 s
      else new ++ replaceAux old new (old.length - 1) s
    else c :: replaceAux old new 0 s

/-- Go `strings.Replace(s, old, new, -1)`: every non-overlapping occurrence of
`old` in `s`, found from the left, is replaced by `new`. -/
def strReplace (s old new : String) : String :=
  ⟨replaceAux old.data new.data 0 s.data⟩

/-- Go `strings.Join(elems, sep)`. -/
def strJoin (elems : List String) (sep : String) : String :=
  sep.intercalate elems

/-- Go `fmt.Sprintf("%v", n)` and `strconv.Itoa(n)` for an integer. -/
def itoa (n : Int) : String :=
  match n with
  | Int.ofNat k => Nat.repr k
  | Int.negSucc k => "-" ++ Nat.repr (k + 1)

/-! ## Values passed as query arguments -/

/-- Modelled from the spec: the three constants of type `model.Status` that the
back-off filter binds (`model.ClusterStatusReady`,
`model.ClusterStatusReconcileErrorRetryable`,
`model.ClusterStatusDeleteErrorRetryable`); package `model` is not part of the
sources at hand, so the constants are kept symbolic. -/
inductive ClusterStatus
  | Ready
  | ReconcileErrorRetryable
  | DeleteErrorRetryable
  deriving DecidableEq, Repr

/-- A Go `interface{}` value as it occurs in an argument list. `named` is
`sql.NamedArg{Name, Value}`; everything else is a plain (positional) value. -/
inductive Value
  | str (s : String)
  | status (s : ClusterStatus)
  | int64 (n : Int)
  | named (name : String) (value : Value)
  deriving DecidableEq, Repr

/-- Go `sql.Named(name, value)`. -/
def sqlNamed (name : String) (value : Value) : Value := Value.named name value

/-- A Go `error`, identified with its message. -/
abbrev GoError := String

/-! ## `convertNamedToPositionalArgs` -/

/-- The mutable variables of `convertNamedToPositionalArgs`: the query, the
argument slice (written in place) and `freqMap`. -/
structure ConvState where
  query : String
  args : List Value
  freqMap : List (String × Nat)
  deriving DecidableEq, Repr

/-- One iteration of the `for i, arg := range args` loop. `none` is a run-time
panic (index out of range, or a failed type assertion). -/
def convertStep (i : Nat) (st : ConvState) : Option ConvState :=
  match st.args.get? i with
  | some (Value.named name value) =>
    match st.freqMap.lookup name with
    | some existingPosition =>
      -- existingArg := args[existingPosition].(sql.NamedArg)
      match st.args.get? existingPosition with
      | some (Value.named existingName _) =>
        let o := ":" ++ existingName
        let n := "$" ++ itoa existingPosition
        some { st with query := strReplace st.query o n }
      | _ => none
    | none =>
      let p := i + 1
      let o := ":" ++ name
      let n := "$" ++ itoa p
      some { query := strReplace st.query o n
             args := st.args.set i value
             freqMap := (name, p) :: st.freqMap }
  | _ => some st

/-- The loop of `convertNamedToPositionalArgs`: `n` iterations starting at
index `i`. -/
def convertLoop : Nat → Nat → ConvState → Option ConvState
  | 0, _, st => some st
  | n + 1, i, st =>
    match convertStep i st with
    | some st1 => convertLoop n (i + 1) st1
    | none => none

/-- `convertNamedToPositionalArgs(query, args...)`: the returned query, the
returned argument slice and the returned error (`none` is `nil`); the outer
`none` is a run-time panic. -/
def convertNamedToPositionalArgs (query : String) (args : List Value) :
    Option (String × List Value × Option GoError) :=
  match convertLoop args.length 0 { query := query, args := args, freqMap := [] } with
  | some st => some (st.query, st.args, none)
  | none => none

/-! ## Placeholder substitution in one pass -/

/-- Worker of `substitutePlaceholders`: scans the text from the left; where an
entry of the table starts, its replacement is written and the entry's text is
skipped (the counter is the number of characters still to skip). -/
def substAux (table : List (List Char × List Char)) : Nat → List Char → List Char
  | _, [] => []
  | k + 1, _ :: s => substAux table k s
  | 0, c :: s =>
    match table.find? (fun p => p.1.isPrefixOf (c :: s)) with
    | some p => p.2 ++ substAux table (p.1.length - 1) s
    | none => c :: substAux table 0 s

/-- The placeholder table of a list of argument names, the first of them at
0-based index `i`: `":" ++ name` is mapped to `"$" ++ (index + 1)`. -/
def placeholderTable : Nat → List String → List (List Char × List Char)
  | _, [] => []
  | i, name :: rest =>
    ((":" ++ name).data, ("$" ++ itoa ((i + 1 : Nat) : Int)).data) :: placeholderTable (i + 1) rest

/-- The query in which every occurrence of `":" ++ name_i` is replaced by
`"$" ++ (i + 1)`, in one pass from the left. -/
def substitutePlaceholders (names : List String) (query : String) : String :=
  ⟨substAux (placeholderTable 0 names) 0 query.data⟩

/-- First character of an ASCII identifier. -/
def isIdentStart (c : Char) : Bool := c.isAlpha || c == '_'

/-- Further character of an ASCII identifier. -/
def isIdentChar (c : Char) : Bool := c.isAlphanum || c == '_'

/-- ASCII identifier: a letter or underscore followed by letters, digits and
underscores. -/
def isAsciiIdentifier (s : String) : Bool :=
  match s.data with
  | [] => false
  | c :: cs => isIdentStart c && cs.all isIdentChar

/-- A table entry `(':' :: name, '$' :: digits)` whose name is free of `:` and
`$` and whose digits are free of `:`. -/
def WFEntry (p : List Char × List Char) : Prop :=
  ∃ nm ds, p.1 = ':' :: nm ∧ ':' ∉ nm ∧ '$' ∉ nm ∧ p.2 = '$' :: ds ∧ ':' ∉ ds

/-! ## `time.Duration` and the float64 arithmetic of `Duration.Seconds` -/

/-- A finite IEEE-754 binary64 value `± mant * 2 ^ exp`. -/
structure F64 where
  neg : Bool
  mant : Nat
  exp : Int
  deriving DecidableEq, Repr

/-- Worker of `log2Floor`, with a recursion budget. -/
def log2FloorAux : Nat → Nat → Nat
  | 0, _ => 0
  | fuel + 1, n => if n < 2 then 0 else log2FloorAux fuel (n / 2) + 1

/-- The position of the leading bit: `⌊log₂ n⌋` for `0 < n`. -/
def log2Floor (n : Nat) : Nat := log2FloorAux n n

/-- Round-to-nearest, ties-to-even, of the non-negative rational `a / b`
(`0 < b`) to 53 significant bits; the result is `mant * 2 ^ exp`. Exponent
range limits play no role for the magnitudes a `Duration` produces. -/
def roundNearestEven (a b : Nat) : Nat × Int :=
  if a = 0 then (0, 0) else
    let e0 : Int := (log2Floor a : Int) - (log2Floor b : Int)
    -- e = ⌊log₂ (a / b)⌋
    let e : Int := if a * 2 ^ (-e0).toNat < b * 2 ^ e0.toNat then e0 - 1 else e0
    let s : Int := 52 - e
    let num := a * 2 ^ s.toNat
    let den := b * 2 ^ (-s).toNat
    let q := num / den
    let r := num % den
    let q1 := if den < 2 * r ∨ (2 * r = den ∧ q % 2 = 1) then q + 1 else q
    (q1, -s)

/-- Go `func (d Duration) Seconds() float64`, with `d` in nanoseconds:
`sec := d / Second; nsec := d % Second; return float64(sec) + float64(nsec)/1e9`.
Both conversions to float64 are exact; the division and the sum round. -/
def Duration.Seconds (d : Int) : F64 :=
  let sec := d.tdiv 1000000000
  let nsec := d.tmod 1000000000
  let f := roundNearestEven nsec.natAbs 1000000000
  let sum := roundNearestEven
    (sec.natAbs * 2 ^ (-f.2).toNat + f.1 * 2 ^ f.2.toNat) (2 ^ (-f.2).toNat)
  { neg := decide (d < 0), mant := sum.1, exp := sum.2 }

/-- Go conversion `int(x)` of a float64: truncation towards zero. -/
def F64.toInt (x : F64) : Int :=
  let m : Nat := x.mant * 2 ^ x.exp.toNat / 2 ^ (-x.exp).toNat
  if x.neg then -(m : Int) else (m : Int)

/-! ## The SQL filters of `pkg/cluster/statussqlfilter.go` -/

/-- Modelled from the spec: `db.Type`, the dialect selector. Its declaration
is not part of the sources at hand; `Postgres` and `SQLite` are the two
constants the filters switch on, `other` is any further value of the type. -/
inductive DbType
  | Postgres
  | SQLite
  | other (name : String)
  deriving DecidableEq, Repr

/-- The `%s` rendering of a `db.Type` other than the two known constants. -/
def DbType.name : DbType → String
  | DbType.Postgres => "postgres"
  | DbType.SQLite => "sqlite"
  | DbType.other n => n

/-- Modelled from the spec: `db.ColumnHandler`, reduced to its method
`ColumnName(logicalName) (string, error)`, which maps a logical column to the
stored column name or fails. -/
abbrev ColumnHandler := String → Except GoError String

def CreatedAtColumnName : String := "Created"
def StatusCreatedAtColumnName : String := "StatusCreatedAt"
def StatusColumnName : String := "Status"
def RuntimeIDColumnName : String := "RuntimeID"
def ConfigIDColumnName : String := "ConfigID"

/-- Go `type filterSQL struct`. -/
structure FilterSQL where
  sql : String
  args : List Value
  deriving DecidableEq, Repr

/-- The pair `&filterSQL{sql: "", args: []interface{}{}}, err` of every failing
return. -/
def failWith (err : GoError) : FilterSQL × Option GoError :=
  ({ sql := "", args := [] }, some err)

/-- The error of the `default:` branches. -/
def unsupportedDbType (dbType : DbType) : GoError :=
  "database type '" ++ dbType.name ++ "' is not supported by this filter"

/-- Go `type statusFilter struct`; a `model.Status` is a string. -/
structure statusFilter where
  allowedStatuses : List String
  deriving DecidableEq, Repr

/-- `statusFilter.statusesToStrings`. -/
def statusFilter.statusesToStrings (sf : statusFilter) : List String :=
  sf.allowedStatuses.foldl (fun result status => result ++ [status]) []

/-- The `switch dbType` of `statusFilter.Filter` that sets the placeholder
character; without a matching case the rune keeps its zero value. -/
def statusFilterPrefix : DbType → Char
  | DbType.Postgres => ':'
  | DbType.SQLite => '@'
  | DbType.other _ => Char.ofNat 0

/-- The loop of `statusFilter.Filter` filling `statusArgsPlaceholders` and
`statusArgsNamedArgs`, starting at index `i`. -/
def statusArgs (pfx : Char) : Nat → List String → List String × List Value
  | _, [] => ([], [])
  | i, status :: rest =>
    let name := "sf" ++ itoa i
    let r := statusArgs pfx (i + 1) rest
    ((String.singleton pfx ++ name) :: r.1, sqlNamed name (Value.str status) :: r.2)

/-- `statusFilter.Filter`. -/
def statusFilter.Filter (sf : statusFilter) (dbType : DbType) (statusColHdr : ColumnHandler) :
    FilterSQL × Option GoError :=
  match statusColHdr StatusColumnName with
  | Except.error err => failWith err
  | Except.ok statusColName =>
    let statuses := sf.statusesToStrings
    let pfx := statusFilterPrefix dbType
    if statuses.length > 1 then
      let r := statusArgs pfx 0 statuses
      let statusArgsNamedArgs := r.2 ++ [sqlNamed "sfStatusColName" (Value.str statusColName)]
      ({ sql := String.singleton pfx ++ "sfStatusColName IN (" ++ strJoin r.1 "," ++ ")"
         args := statusArgsNamedArgs }, none)
    else
      ({ sql := statusColName ++ " = " ++ String.singleton pfx ++ "stausFilterValue"
         args := [sqlNamed "stausFilterValue" (Value.str (strJoin sf.statusesToStrings "','"))] },
       none)

/-- Go `type reconcileIntervalFilter struct`; the interval in nanoseconds. -/
structure reconcileIntervalFilter where
  reconcileInterval : Int
  deriving DecidableEq, Repr

/-- `reconcileIntervalFilter.Filter`. -/
def reconcileIntervalFilter.Filter (rif : reconcileIntervalFilter) (dbType : DbType)
    (statusColHdr : ColumnHandler) : FilterSQL × Option GoError :=
  match statusColHdr StatusColumnName with
  | Except.error err => failWith err
  | Except.ok statusColName =>
    match statusColHdr StatusCreatedAtColumnName with
    | Except.error err => failWith err
    | Except.ok createdColName =>
      match dbType with
      | DbType.Postgres =>
        ({ sql := statusColName ++
             " IN (:rifCSR, :rifCSRER, :rifCSDER) AND :rifCN <= NOW() - INTERVAL :rifInterval"
           args := [
             sqlNamed "rifCSR" (Value.status ClusterStatus.Ready),
             sqlNamed "rifCSRER" (Value.status ClusterStatus.ReconcileErrorRetryable),
             sqlNamed "rifCSDER" (Value.status ClusterStatus.DeleteErrorRetryable),
             sqlNamed "rifCN" (Value.str createdColName),
             sqlNamed "rifInterval"
               (Value.str (itoa (Duration.Seconds rif.reconcileInterval).toInt ++ " SECOND"))] },
         none)
      | DbType.SQLite =>
        ({ sql := statusColName ++
             " IN (@rifCSR, @rifCSRER, @rifCSDER) AND @rifCN <= DATETIME('now', @rifInterval)"
           args := [
             sqlNamed "rifCSR" (Value.status ClusterStatus.Ready),
             sqlNamed "rifCSRER" (Value.status ClusterStatus.ReconcileErrorRetryable),
             sqlNamed "rifCSDER" (Value.status ClusterStatus.DeleteErrorRetryable),
             sqlNamed "rifCN" (Value.str createdColName),
             sqlNamed "rifInterval"
               (Value.str ("-" ++ itoa (Duration.Seconds rif.reconcileInterval).toInt
                 ++ " SECONDS"))] },
         none)
      | DbType.other _ => failWith (unsupportedDbType dbType)

/-- Go `type createdIntervalFilter struct`; the interval in nanoseconds. -/
structure createdIntervalFilter where
  runtimeID : String
  interval : Int
  deriving DecidableEq, Repr

/-- `createdIntervalFilter.Filter`. The argument `formatFloat` stands for the
library function `strconv.FormatFloat(x, 'f', -1, 64)`. -/
def createdIntervalFilter.Filter (formatFloat : F64 → String) (rif : createdIntervalFilter)
    (dbType : DbType) (statusColHdr : ColumnHandler) : FilterSQL × Option GoError :=
  match statusColHdr RuntimeIDColumnName with
  | Except.error err => failWith err
  | Except.ok runtimeIDColName =>
    match statusColHdr CreatedAtColumnName with
    | Except.error err => failWith err
    | Except.ok createdColName =>
      match dbType with
      | DbType.Postgres =>
        ({ sql := ":cifRuntimeIDColName = :cifruntimeId AND :cifCreatedColName >= " ++
             "NOW() - INTERVAL :createdIntervalFilterInterval"
           args := [
             sqlNamed "cifRuntimeIDColName" (Value.str runtimeIDColName),
             sqlNamed "cifruntimeId" (Value.str rif.runtimeID),
             sqlNamed "cifCreatedColName" (Value.str createdColName),
             sqlNamed "createdIntervalFilterInterval"
               (Value.str (itoa (Duration.Seconds rif.interval).toInt ++ " SECOND"))] },
         none)
      | DbType.SQLite =>
        ({ sql := "@cifRuntimeIDColName = @cifruntimeId AND @cifCreatedColName >= " ++
             "DATETIME('now', @createdIntervalFilterInterval)"
           args := [
             sqlNamed "cifRuntimeIDColName" (Value.str runtimeIDColName),
             sqlNamed "cifruntimeId" (Value.str rif.runtimeID),
             sqlNamed "cifCreatedColName" (Value.str createdColName),
             sqlNamed "createdIntervalFilterInterval"
               (Value.str ("-" ++ formatFloat (Duration.Seconds rif.interval) ++ " SECONDS"))] },
         none)
      | DbType.other _ => failWith (unsupportedDbType dbType)

/-- Go `type runtimeIDFilter struct`. -/
structure runtimeIDFilter where
  runtimeID : String
  deriving DecidableEq, Repr

/-- `runtimeIDFilter.Filter`. -/
def runtimeIDFilter.Filter (r : runtimeIDFilter) (dbType : DbType)
    (statusColHdr : ColumnHandler) : FilterSQL × Option GoError :=
  match statusColHdr RuntimeIDColumnName with
  | Except.error err => failWith err
  | Except.ok runtimeIDColName =>
    match dbType with
    | DbType.Postgres =>
      ({ sql := ":ridfRuntimeIDColName = :ridfRuntimeId"
         args := [
           sqlNamed "ridfRuntimeIDColName" (Value.str runtimeIDColName),
           sqlNamed "ridfRuntimeId" (Value.str r.runtimeID)] },
       none)
    | DbType.SQLite =>
      ({ sql := "@ridfRuntimeIDColName = @ridfRuntimeId"
         args := [
           sqlNamed "ridfRuntimeIDColName" (Value.str runtimeIDColName),
           sqlNamed "ridfRuntimeId" (Value.str r.runtimeID)] },
       none)
    | DbType.other _ => failWith (unsupportedDbType dbType)

/-- `namedParameterPrefix`; `none` is its `panic`. -/
def namedParameterPrefix : DbType → Option Char
  | DbType.Postgres => some ':'
  | DbType.SQLite => some '@'
  | DbType.other _ => none

/-- Go `type configIDFilter struct`. -/
structure configIDFilter where
  configID : Int
  deriving DecidableEq, Repr

/-- `configIDFilter.Filter`. -/
def configIDFilter.Filter (r : configIDFilter) (dbType : DbType)
    (statusColHdr : ColumnHandler) : FilterSQL × Option GoError :=
  match statusColHdr ConfigIDColumnName with
  | Except.error err => failWith err
  | Except.ok configIDColName =>
    match dbType with
    | DbType.Postgres =>
      ({ sql := "? = ?"
         args := [Value.str configIDColName, Value.int64 r.configID] },
       none)
    | DbType.SQLite =>
      ({ sql := "@cidfConfigIDColName = @cidfConfigId"
         args := [
           sqlNamed "cidfConfigIDColName" (Value.str configIDColName),
           sqlNamed "cidfConfigId" (Value.int64 r.configID)] },
       none)
    | DbType.other _ => failWith (unsupportedDbType dbType)

/-- The implementations of the interface `statusSQLFilter`. -/
inductive ConcreteFilter
  | status (f : statusFilter)
  | reconcileInterval (f : reconcileIntervalFilter)
  | createdInterval (f : createdIntervalFilter)
  | runtimeID (f : runtimeIDFilter)
  | configID (f : configIDFilter)
  deriving DecidableEq, Repr

/-- Method dispatch of `statusSQLFilter.Filter`. -/
def ConcreteFilter.Filter (formatFloat : F64 → String) (f : ConcreteFilter) (dbType : DbType)
    (colHdr : ColumnHandler) : FilterSQL × Option GoError :=
  match f with
  | ConcreteFilter.status sf => sf.Filter dbType colHdr
  | ConcreteFilter.reconcileInterval rif => rif.Filter dbType colHdr
  | ConcreteFilter.createdInterval cif => cif.Filter formatFloat dbType colHdr
  | ConcreteFilter.runtimeID r => r.Filter dbType colHdr
  | ConcreteFilter.configID r => r.Filter dbType colHdr

/-- The logical columns a filter passes to `ColumnName`, in call order. -/
def ConcreteFilter.resolvedColumns : ConcreteFilter → List String
  | ConcreteFilter.status _ => [StatusColumnName]
  | ConcreteFilter.reconcileInterval _ => [StatusColumnName, StatusCreatedAtColumnName]
  | ConcreteFilter.createdInterval _ => [RuntimeIDColumnName, CreatedAtColumnName]
  | ConcreteFilter.runtimeID _ => [RuntimeIDColumnName]
  | ConcreteFilter.configID _ => [ConfigIDColumnName]

/-- The error of the first logical column, in list order, that the column
handler fails to resolve. -/
def firstFailure (colHdr : ColumnHandler) : List String → Option GoError
  | [] => none
  | c :: cs =>
    match colHdr c with
    | Except.error e => some e
    | Except.ok _ => firstFailure colHdr cs

/-! ## The worker of `pkg/scheduler/worker/worker.go` -/

/-- Modelled from the spec: `model.OperationState`. Its declaration is not part
of the sources at hand; `Done`, `Error` and `InProgress` are the three
constants the worker compares with, `other` is any further value of the type. -/
inductive OperationState
  | Done
  | Error
  | InProgress
  | other (name : String)
  deriving DecidableEq, Repr

/-- Modelled from the spec: `model.OperationEntity`, reduced to the fields the
worker reads (`OpType` is the field `Type`). -/
structure OperationEntity where
  SchedulingID : String
  CorrelationID : String
  Component : String
  OpType : String
  State : OperationState
  deriving DecidableEq, Repr

/-- Modelled from the spec: a component of the cluster configuration,
identified by its name. -/
structure Component where
  Name : String
  deriving DecidableEq, Repr

/-- Modelled from the spec: `cluster.State`, reduced to the runtime ID of the
cluster and the components of its configuration. -/
structure ClusterState where
  RuntimeID : String
  Components : List Component
  deriving DecidableEq, Repr

/-- Modelled from the spec: `Configuration.GetComponent(name)`, the configured
component of that name; `none` is the nil pointer. -/
def ClusterState.GetComponent (clusterState : ClusterState) (name : String) : Option Component :=
  clusterState.Components.find? (fun c => c.Name == name)

/-- The filters of package `operation` that the worker puts into its query. -/
inductive OperationFilter
  | WithSchedulingID (SchedulingID : String)
  | WithStates (States : List OperationState)
  deriving DecidableEq, Repr

/-- Go `operation.FilterMixer`: its list `Filters`. -/
abbrev FilterMixer := List OperationFilter

/-- Go `invoker.Params` as the worker fills it (`OpType` is the field `Type`). -/
structure Params where
  ComponentToReconcile : Component
  ComponentsReady : List String
  SchedulingID : String
  CorrelationID : String
  ClusterState : ClusterState
  MaxOperationRetries : Int
  OpType : String
  deriving DecidableEq, Repr

/-- Go `type worker struct` without its logger. `reconRepo` is the method
`GetOperations` of the repository; `invoker` is the method `Invoke`, whose
first argument here is the number of calls made before. -/
structure worker where
  reconRepo : FilterMixer → Except GoError (List OperationEntity)
  invoker : Nat → Params → Option GoError
  maxRetries : Int
  retryDelay : Int

/-- An `error` returned by `run`: an ordinary error value, or the `retry.Error`
holding the errors of all attempts. -/
inductive RunError
  | err (e : GoError)
  | attempts (errorLog : List GoError)
  deriving DecidableEq, Repr

/-- Result of `retry.Do`: the returned error and the number of calls of the
retried function. -/
structure RetryOutcome where
  err : Option RunError
  calls : Nat
  deriving DecidableEq, Repr

/-- Modelled from the spec: the attempt loop of `retry.Do`, with `remaining`
attempts left after `n` calls. A successful call ends the loop with nil; a
failed call is recorded; after the last attempt the recorded errors are
returned; between attempts the pending delay is abandoned with the context's
error once the context is done. `ctxErr k` is the context's error as seen after
`k` calls. -/
def retryLoop (retryable : Nat → Option GoError) (ctxErr : Nat → Option GoError) :
    Nat → Nat → List GoError → RetryOutcome
  | 0, n, errorLog => { err := some (RunError.attempts errorLog), calls := n }
  | remaining + 1, n, errorLog =>
    match retryable n with
    | none => { err := none, calls := n + 1 }
    | some e =>
      if remaining = 0 then
        { err := some (RunError.attempts (errorLog ++ [e])), calls := n + 1 }
      else
        match ctxErr (n + 1) with
        | some c => { err := some (RunError.err c), calls := n + 1 }
        | none => retryLoop retryable ctxErr remaining (n + 1) (errorLog ++ [e])

/-- Modelled from the spec: `retry.Do(retryable, retry.Attempts(attempts),
retry.Delay(..), retry.LastErrorOnly(false), retry.Context(ctx))` of the library
`avast/retry-go`, which is not part of the sources at hand: up to `attempts`
calls, the first success returns nil, exhaustion returns the errors of all
attempts, a context that is done returns the context's error. -/
def retryDo (attempts : Nat) (retryable : Nat → Option GoError)
    (ctxErr : Nat → Option GoError) : RetryOutcome :=
  match ctxErr 0 with
  | some c => { err := some (RunError.err c), calls := 0 }
  | none => retryLoop retryable ctxErr attempts 0 []

/-- What a call of `run` does: the returned error, the queries sent to the
repository and the parameters of the calls of the invoker, in call order. -/
structure RunResult where
  err : Option RunError
  repoCalls : List FilterMixer
  invokerCalls : List Params
  deriving DecidableEq, Repr

/-- `worker.isProcessable`. -/
def worker.isProcessable (_w : worker) (op : OperationEntity) : Bool :=
  op.State != OperationState.Done &&
    op.State != OperationState.Error &&
    op.State != OperationState.InProgress

/-- The `FilterMixer` that `worker.componentsReady` passes to `GetOperations`. -/
def componentsReadyQuery (op : OperationEntity) : FilterMixer :=
  [OperationFilter.WithSchedulingID op.SchedulingID,
   OperationFilter.WithStates [OperationState.Done]]

/-- `worker.componentsReady`. -/
def worker.componentsReady (w : worker) (op : OperationEntity) : Except GoError (List String) :=
  match w.reconRepo (componentsReadyQuery op) with
  | Except.error err => Except.error err
  | Except.ok opsReady =>
    Except.ok (opsReady.foldl (fun result opReady => result ++ [opReady.Component]) [])

/-- `worker.run`. The conversion `uint(w.maxRetries)` is taken modulo `2 ^ 64`. -/
def worker.run (w : worker) (ctxErr : Nat → Option GoError) (clusterState : ClusterState)
    (op : OperationEntity) (maxOpRetries : Int) : RunResult :=
  if !w.isProcessable op then
    { err := none, repoCalls := [], invokerCalls := [] }
  else
    match w.componentsReady op with
    | Except.error err =>
      { err := some (RunError.err err), repoCalls := [componentsReadyQuery op],
        invokerCalls := [] }
    | Except.ok compsReady =>
      match clusterState.GetComponent op.Component with
      | none =>
        { err := some (RunError.err ("cluster '" ++ clusterState.RuntimeID ++
            "' has no component '" ++ op.Component ++ "' configured"))
          repoCalls := [componentsReadyQuery op], invokerCalls := [] }
      | some comp =>
        let params : Params :=
          { ComponentToReconcile := comp
            ComponentsReady := compsReady
            SchedulingID := op.SchedulingID
            CorrelationID := op.CorrelationID
            ClusterState := clusterState
            MaxOperationRetries := maxOpRetries
            OpType := op.OpType }
        let r := retryDo (w.maxRetries % 2 ^ 64).toNat (fun n => w.invoker n params) ctxErr
        { err := r.err, repoCalls := [componentsReadyQuery op],
          invokerCalls := List.replicate r.calls params }

/-- A sample operation of the component `istio` in a processable state. -/
def sampleOp : OperationEntity :=
  { SchedulingID := "sched-1", CorrelationID := "corr-1", Component := "istio",
    OpType := "reconcile", State := OperationState.other "new" }

/-- A finished operation of the given component in the same run. -/
def doneOp (component : String) : OperationEntity :=
  { SchedulingID := "sched-1", CorrelationID := "corr-2", Component := component,
    OpType := "reconcile", State := OperationState.Done }

/-- A sample cluster state with the given component names configured. -/
def sampleCluster (names : List String) : ClusterState :=
  { RuntimeID := "runtime-1", Components := names.map (fun n => { Name := n }) }

/-- A sample worker: the repository answers every query with `ops`, the
invoker fails on the calls selected by `fails` (numbered from 0) and succeeds
on the others. -/
def sampleWorker (ops : List OperationEntity) (fails : Nat → Bool) (maxRetries : Int) : worker :=
  { reconRepo := fun _ => Except.ok ops
    invoker := fun n _ => if fails n then some "invocation failed" else none
    maxRetries := maxRetries
    retryDelay := 1000000000 }

/-- A sample worker whose repository fails every query with the error `e`;
its invoker would succeed. -/
def failingRepoWorker (e : GoError) (maxRetries : Int) : worker :=
  { reconRepo := fun _ => Except.error e
    invoker := fun _ _ => none
    maxRetries := maxRetries
    retryDelay := 1000000000 }

/-! ## Theorems: `convertNamedToPositionalArgs` on distinct named arguments -/

theorem find?_pred_congr {α : Type} (l : List α) (f g : α → Bool) (h : ∀ x ∈ l, f x = g x) :
    l.find? f = l.find? g := by
  induction l with
  | nil => rfl
  | cons a l ih =>
    have ha : f a = g a := h a (List.mem_cons_self a l)
    have hl : ∀ x ∈ l, f x = g x := fun x hx => h x (List.mem_cons_of_mem a hx)
    simp only [List.find?_cons, ha, ih hl]

theorem substAux_nil (t : List (List Char × List Char)) (k : Nat) : substAux t k [] = [] := by
  cases k <;> rfl

theorem substAux_skip (t : List (List Char × List Char)) (x rest : List Char) :
    substAux t x.length (x ++ rest) = substAux t 0 rest := by
  induction x with
  | nil => rfl
  | cons c x ih => simpa [substAux] using ih

theorem substAux_nomatch (t : List (List Char × List Char)) (c : Char) (s : List Char)
    (h : t.find? (fun p => p.1.isPrefixOf (c :: s)) = none) :
    substAux t 0 (c :: s) = c :: substAux t 0 s := by
  simp only [substAux, h]

theorem substAux_match (t : List (List Char × List Char)) (p : List Char × List Char)
    (c : Char) (o rest : List Char) (hp : p.1 = c :: o)
    (h : t.find? (fun p => p.1.isPrefixOf (c :: (o ++ rest))) = some p) :
    substAux t 0 (c :: (o ++ rest)) = p.2 ++ substAux t 0 rest := by
  simp only [substAux, h, hp, List.length_cons, Nat.add_sub_cancel, substAux_skip]

theorem substAux_empty_table (x : List Char) : substAux [] 0 x = x := by
  induction x with
  | nil => rfl
  | cons c x ih => simp [substAux, ih]

theorem replaceAux_eq_substAux (o n : List Char) (ho : o ≠ []) (k : Nat) (s : List Char) :
    replaceAux o n k s = substAux [(o, n)] k s := by
  induction s generalizing k with
  | nil => cases k <;> simp [replaceAux, substAux, ho]
  | cons c s ih =>
    cases k with
    | succ k => simp [replaceAux, substAux, ih]
    | zero =>
      by_cases hpre : o.isPrefixOf (c :: s) = true
      · simp [replaceAux, substAux, hpre, ho, ih, List.find?_cons]
      · simp [replaceAux, substAux, hpre, ih, List.find?_cons]

theorem find?_none_of_head (t : List (List Char × List Char)) (ht : ∀ p ∈ t, WFEntry p)
    (c : Char) (s : List Char) (hc : c ≠ ':') :
    t.find? (fun p => p.1.isPrefixOf (c :: s)) = none := by
  rw [List.find?_eq_none]
  intro p hp hpre
  obtain ⟨nm, ds, h1, -, -, -, -⟩ := ht p hp
  rw [List.isPrefixOf_iff_prefix, h1, List.cons_prefix_cons] at hpre
  exact hc hpre.1.symm

theorem substAux_append_of_not_mem (t : List (List Char × List Char))
    (ht : ∀ p ∈ t, WFEntry p) (x rest : List Char) (hx : ':' ∉ x) :
    substAux t 0 (x ++ rest) = x ++ substAux t 0 rest := by
  induction x with
  | nil => rfl
  | cons c x ih =>
    have hc : c ≠ ':' := fun h => hx (h ▸ List.mem_cons_self c x)
    have hx1 : ':' ∉ x := fun h => hx (List.mem_cons_of_mem c h)
    rw [List.cons_append, substAux_nomatch t c (x ++ rest) (find?_none_of_head t ht c _ hc),
      ih hx1]
    rfl

theorem startsWith_substAux_iff (t : List (List Char × List Char)) (ht : ∀ p ∈ t, WFEntry p)
    (nm : List Char) (h1 : ':' ∉ nm) (h2 : '$' ∉ nm) (x : List Char) :
    nm <+: substAux t 0 x ↔ nm <+: x := by
  induction nm generalizing x with
  | nil => simp
  | cons c nm ih =>
    have hc1 : c ≠ ':' := fun h => h1 (h ▸ List.mem_cons_self c nm)
    have hc2 : c ≠ '$' := fun h => h2 (h ▸ List.mem_cons_self c nm)
    have hn1 : ':' ∉ nm := fun h => h1 (List.mem_cons_of_mem c h)
    have hn2 : '$' ∉ nm := fun h => h2 (List.mem_cons_of_mem c h)
    cases x with
    | nil => simp [substAux_nil]
    | cons d x =>
      cases hf : t.find? (fun p => p.1.isPrefixOf (d :: x)) with
      | none =>
        rw [substAux_nomatch t d x hf, List.cons_prefix_cons, List.cons_prefix_cons, ih hn1 hn2]
      | some p =>
        obtain ⟨pn, ds, hp1, -, -, hp2, -⟩ := ht p (List.mem_of_find?_eq_some hf)
        have hpre := List.find?_some hf
        simp only [List.isPrefixOf_iff_prefix] at hpre
        rw [hp1] at hpre
        obtain ⟨rest, hrest⟩ := hpre
        have hd : d = ':' := by simp at hrest; exact hrest.1.symm
        have hx : x = pn ++ rest := by simp at hrest; exact hrest.2.symm
        subst hd
        subst hx
        rw [substAux_match t p ':' pn rest hp1 hf, hp2]
        simp only [List.cons_append, List.cons_prefix_cons]
        constructor
        · intro h; exact absurd h.1 hc2
        · intro h; exact absurd h.1 hc1

theorem entry_startsWith_cons_iff (t : List (List Char × List Char)) (ht : ∀ p ∈ t, WFEntry p)
    (q : List Char × List Char) (hq : WFEntry q) (c : Char) (s : List Char) :
    q.1.isPrefixOf (c :: substAux t 0 s) = q.1.isPrefixOf (c :: s) := by
  obtain ⟨nm, ds, h1, h2, h3, -, -⟩ := hq
  rw [Bool.eq_iff_iff, List.isPrefixOf_iff_prefix, List.isPrefixOf_iff_prefix, h1,
    List.cons_prefix_cons, List.cons_prefix_cons, startsWith_substAux_iff t ht nm h2 h3]

/-- Replacing one entry first and the remaining entries afterwards is the
one-pass substitution with that entry put in front of the table. -/
theorem substAux_compose (e : List Char × List Char) (he : WFEntry e)
    (m : List (List Char × List Char)) (hm : ∀ p ∈ m, WFEntry p) :
    ∀ (n : Nat) (q : List Char), q.length ≤ n →
      substAux m 0 (substAux [e] 0 q) = substAux (e :: m) 0 q := by
  have hsingle : ∀ p ∈ [e], WFEntry p := by
    intro p hp
    rw [List.mem_singleton] at hp
    exact hp ▸ he
  obtain ⟨en, eds, he1, he2, he3, he4, he5⟩ := he
  intro n
  induction n with
  | zero =>
    intro q hq
    have : q = [] := List.length_eq_zero.mp (Nat.le_zero.mp hq)
    subst this
    simp [substAux_nil]
  | succ n ih =>
    intro q hq
    cases q with
    | nil => simp [substAux_nil]
    | cons c s =>
      have hs : s.length ≤ n := by simpa using hq
      by_cases hpre : e.1.isPrefixOf (c :: s) = true
      · -- the entry `e` starts here
        have hpre1 := hpre
        rw [List.isPrefixOf_iff_prefix, he1] at hpre1
        obtain ⟨rest, hrest⟩ := hpre1
        have hc : c = ':' := by simp at hrest; exact hrest.1.symm
        have hx : s = en ++ rest := by simp at hrest; exact hrest.2.symm
        subst hc
        subst hx
        have hrl : rest.length ≤ n := by
          simp only [List.length_append] at hs; omega
        have hf1 : [e].find? (fun p => p.1.isPrefixOf (':' :: (en ++ rest))) = some e := by
          simp [List.find?_cons, hpre]
        have hf2 : (e :: m).find? (fun p => p.1.isPrefixOf (':' :: (en ++ rest))) = some e := by
          simp [List.find?_cons, hpre]
        rw [substAux_match [e] e ':' en rest he1 hf1, substAux_match (e :: m) e ':' en rest he1 hf2,
          he4]
        have hds : ':' ∉ '$' :: eds := by
          intro h
          rcases List.mem_cons.mp h with h | h
          · exact absurd h (by decide)
          · exact he5 h
        rw [substAux_append_of_not_mem m hm ('$' :: eds) _ hds, ih rest hrl]
      · -- the entry `e` does not start here
        have hf1 : [e].find? (fun p => p.1.isPrefixOf (c :: s)) = none := by
          simp [List.find?_cons, hpre]
        have hf2 : (e :: m).find? (fun p => p.1.isPrefixOf (c :: s)) =
            m.find? (fun p => p.1.isPrefixOf (c :: s)) := by
          simp [List.find?_cons, hpre]
        have hcongr : m.find? (fun p => p.1.isPrefixOf (c :: substAux [e] 0 s)) =
            m.find? (fun p => p.1.isPrefixOf (c :: s)) :=
          find?_pred_congr m _ _ (fun p hp => entry_startsWith_cons_iff [e] hsingle p (hm p hp) c s)
        rw [substAux_nomatch [e] c s hf1]
        cases hf : m.find? (fun p => p.1.isPrefixOf (c :: s)) with
        | none =>
          rw [substAux_nomatch m c _ (hcongr.trans hf),
            substAux_nomatch (e :: m) c s (hf2.trans hf), ih s hs]
        | some p =>
          obtain ⟨pn, pds, hp1, hp2, hp3, hp4, hp5⟩ := hm p (List.mem_of_find?_eq_some hf)
          have hpp := List.find?_some hf
          simp only [List.isPrefixOf_iff_prefix] at hpp
          rw [hp1] at hpp
          obtain ⟨rest, hrest⟩ := hpp
          have hc : c = ':' := by simp at hrest; exact hrest.1.symm
          have hx : s = pn ++ rest := by simp at hrest; exact hrest.2.symm
          subst hc
          subst hx
          have hrl : rest.length ≤ n := by
            simp only [List.length_append] at hs; omega
          have hmid : substAux [e] 0 (pn ++ rest) = pn ++ substAux [e] 0 rest :=
            substAux_append_of_not_mem [e] hsingle pn rest hp2
          rw [hmid] at hcongr ⊢
          rw [substAux_match m p ':' pn _ hp1 (hcongr.trans hf),
            substAux_match (e :: m) p ':' pn rest hp1 (hf2.trans hf), ih rest hrl]

theorem cons_occurs_append_of_not_mem {α : Type} (a : α) (l x y : List α) (ha : a ∉ x)
    (h : a :: l <:+: x ++ y) : a :: l <:+: y := by
  induction x with
  | nil => simpa using h
  | cons b x ih =>
    have hb : a ≠ b := fun hab => ha (hab ▸ List.mem_cons_self a x)
    have hx : a ∉ x := fun hm => ha (List.mem_cons_of_mem b hm)
    rw [List.cons_append, List.infix_cons_iff] at h
    rcases h with h | h
    · rw [List.cons_prefix_cons] at h
      exact absurd h.1 hb
    · exact ih hx h

/-- No entry of the table occurs in the result of the one-pass substitution. -/
theorem not_occurs_substAux (t : List (List Char × List Char)) (ht : ∀ p ∈ t, WFEntry p)
    (p : List Char × List Char) (hp : p ∈ t) :
    ∀ (n : Nat) (q : List Char), q.length ≤ n → ¬ p.1 <:+: substAux t 0 q := by
  have hwp := ht p hp
  obtain ⟨pn, pds, hp1, hp2, hp3, hp4, hp5⟩ := ht p hp
  intro n
  induction n with
  | zero =>
    intro q hq
    have : q = [] := List.length_eq_zero.mp (Nat.le_zero.mp hq)
    subst this
    simp [substAux_nil, hp1]
  | succ n ih =>
    intro q hq
    cases q with
    | nil => simp [substAux_nil, hp1]
    | cons c s =>
      have hs : s.length ≤ n := by simpa using hq
      cases hf : t.find? (fun p => p.1.isPrefixOf (c :: s)) with
      | none =>
        rw [substAux_nomatch t c s hf, List.infix_cons_iff]
        rintro (h | h)
        · have h1 : p.1.isPrefixOf (c :: substAux t 0 s) = true :=
            List.isPrefixOf_iff_prefix.mpr h
          rw [entry_startsWith_cons_iff t ht p hwp c s] at h1
          exact (List.find?_eq_none.mp hf) p hp h1
        · exact ih s hs h
      | some p0 =>
        obtain ⟨n0, ds0, h01, h02, h03, h04, h05⟩ := ht p0 (List.mem_of_find?_eq_some hf)
        have hpp := List.find?_some hf
        simp only [List.isPrefixOf_iff_prefix] at hpp
        rw [h01] at hpp
        obtain ⟨rest, hrest⟩ := hpp
        have hc : c = ':' := by simp at hrest; exact hrest.1.symm
        have hx : s = n0 ++ rest := by simp at hrest; exact hrest.2.symm
        subst hc
        subst hx
        have hrl : rest.length ≤ n := by
          simp only [List.length_append] at hs; omega
        rw [substAux_match t p0 ':' n0 rest h01 hf, h04, hp1]
        intro h
        have hds : ':' ∉ '$' :: ds0 := by
          intro h
          rcases List.mem_cons.mp h with h | h
          · exact absurd h (by decide)
          · exact h05 h
        have := cons_occurs_append_of_not_mem ':' pn ('$' :: ds0) _ hds h
        rw [← hp1] at this
        exact ih rest hrl this

theorem digitChar_ne_colon : ∀ k, k < 10 → Nat.digitChar k ≠ ':' := by
  decide

theorem toDigitsCore_no_colon (fuel n : Nat) (ds : List Char) (hds : ':' ∉ ds) :
    ':' ∉ Nat.toDigitsCore 10 fuel n ds := by
  induction fuel generalizing n ds with
  | zero => simpa [Nat.toDigitsCore] using hds
  | succ fuel ih =>
    have hcons : ':' ∉ Nat.digitChar (n % 10) :: ds := by
      intro h
      rcases List.mem_cons.mp h with h | h
      · exact digitChar_ne_colon _ (Nat.mod_lt n (by decide)) h.symm
      · exact hds h
    simp only [Nat.toDigitsCore]
    split
    · exact hcons
    · exact ih _ _ hcons

theorem itoa_natCast (k : Nat) : itoa (k : Int) = Nat.repr k := rfl

theorem repr_no_colon (k : Nat) : ':' ∉ (Nat.repr k).data := by
  simp only [Nat.repr, Nat.toDigits, List.asString]
  exact toDigitsCore_no_colon _ _ [] (by simp)

theorem identChar_ne (c : Char) (h : isIdentChar c = true) : c ≠ ':' ∧ c ≠ '$' := by
  constructor
  · rintro rfl; exact absurd h (by decide)
  · rintro rfl; exact absurd h (by decide)

theorem identStart_identChar (c : Char) (h : isIdentStart c = true) : isIdentChar c = true := by
  simp only [isIdentStart, isIdentChar, Char.isAlphanum, Bool.or_eq_true] at h ⊢
  rcases h with h | h
  · exact Or.inl (Or.inl h)
  · exact Or.inr h

theorem identifier_no_special (s : String) (h : isAsciiIdentifier s = true) :
    ':' ∉ s.data ∧ '$' ∉ s.data := by
  unfold isAsciiIdentifier at h
  split at h
  · exact absurd h (by simp)
  · rename_i c cs heq
    rw [heq]
    simp only [Bool.and_eq_true, List.all_eq_true] at h
    have hall : ∀ x ∈ c :: cs, isIdentChar x = true := by
      intro x hx
      rcases List.mem_cons.mp hx with hx | hx
      · exact hx ▸ identStart_identChar c h.1
      · exact h.2 x hx
    constructor
    · intro hm; exact (identChar_ne _ (hall _ hm)).1 rfl
    · intro hm; exact (identChar_ne _ (hall _ hm)).2 rfl

theorem placeholder_entry_wf (name : String) (k : Nat) (h1 : ':' ∉ name.data)
    (h2 : '$' ∉ name.data) :
    WFEntry ((":" ++ name).data, ("$" ++ itoa (k : Int)).data) :=
  ⟨name.data, (Nat.repr k).data, by simp [String.data_append], h1, h2,
    by simp [String.data_append, itoa_natCast], repr_no_colon k⟩

theorem placeholderTable_wf (names : List String)
    (h : ∀ n ∈ names, ':' ∉ n.data ∧ '$' ∉ n.data) (i : Nat) :
    ∀ p ∈ placeholderTable i names, WFEntry p := by
  induction names generalizing i with
  | nil => intro p hp; simp [placeholderTable] at hp
  | cons a names ih =>
    intro p hp
    simp only [placeholderTable, List.mem_cons] at hp
    rcases hp with hp | hp
    · rw [hp]
      exact placeholder_entry_wf a (i + 1) (h a (List.mem_cons_self a names)).1
        (h a (List.mem_cons_self a names)).2
    · exact ih (fun n hn => h n (List.mem_cons_of_mem a hn)) (i + 1) p hp

theorem strReplace_placeholder_data (q name : String) (k : Nat) :
    (strReplace q (":" ++ name) ("$" ++ itoa (k : Int))).data =
      substAux [((":" ++ name).data, ("$" ++ itoa (k : Int)).data)] 0 q.data := by
  simp only [strReplace]
  exact replaceAux_eq_substAux _ _ (by simp [String.data_append]) 0 q.data

/-- The loop of `convertNamedToPositionalArgs` over named arguments with
pairwise distinct names that are not yet in `freqMap`: it returns, every
argument is replaced by its value, and the query is the one-pass substitution
of the placeholder table. -/
theorem convertLoop_distinct (l : List (String × Value))
    (hsp : ∀ nv ∈ l, ':' ∉ nv.1.data ∧ '$' ∉ nv.1.data)
    (hnd : l.Pairwise (fun a b => a.1 ≠ b.1)) :
    ∀ (pre : List Value) (q : String) (fm : List (String × Nat)),
      (∀ nv ∈ l, fm.lookup nv.1 = none) →
      ∃ st, convertLoop l.length pre.length
          { query := q, args := pre ++ l.map (fun nv => sqlNamed nv.1 nv.2), freqMap := fm } =
            some st ∧
        st.args = pre ++ l.map (fun nv => nv.2) ∧
        ∀ m, (∀ p ∈ m, WFEntry p) →
          substAux m 0 st.query.data =
            substAux (placeholderTable pre.length (l.map (fun nv => nv.1)) ++ m) 0 q.data := by
  induction l with
  | nil =>
    intro pre q fm _
    exact ⟨_, rfl, by simp, fun m _ => by simp [placeholderTable]⟩
  | cons nv l ih =>
    intro pre q fm hfm
    have hnv := hsp nv (List.mem_cons_self nv l)
    have hsp1 : ∀ x ∈ l, ':' ∉ x.1.data ∧ '$' ∉ x.1.data :=
      fun x hx => hsp x (List.mem_cons_of_mem nv hx)
    rw [List.pairwise_cons] at hnd
    have hget : (pre ++ (nv :: l).map (fun nv => sqlNamed nv.1 nv.2)).get? pre.length =
        some (Value.named nv.1 nv.2) := by
      rw [List.get?_eq_getElem?, List.getElem?_append_right (Nat.le_refl _)]
      simp [sqlNamed]
    have hset : (pre ++ (nv :: l).map (fun nv => sqlNamed nv.1 nv.2)).set pre.length nv.2 =
        (pre ++ [nv.2]) ++ l.map (fun nv => sqlNamed nv.1 nv.2) := by
      simp
    have hstep : convertStep pre.length
        { query := q, args := pre ++ (nv :: l).map (fun nv => sqlNamed nv.1 nv.2), freqMap := fm } =
        some { query := strReplace q (":" ++ nv.1) ("$" ++ itoa ((pre.length + 1 : Nat) : Int))
               args := (pre ++ [nv.2]) ++ l.map (fun nv => sqlNamed nv.1 nv.2)
               freqMap := (nv.1, pre.length + 1) :: fm } := by
      simp only [convertStep, hget, hfm nv (List.mem_cons_self nv l), hset]
    have hfm1 : ∀ x ∈ l, ((nv.1, pre.length + 1) :: fm).lookup x.1 = none := by
      intro x hx
      have hne : x.1 ≠ nv.1 := fun h => hnd.1 x hx h.symm
      rw [List.lookup_cons]
      have hb : (x.1 == nv.1) = false := by simpa using hne
      rw [hb]
      exact hfm x (List.mem_cons_of_mem nv hx)
    obtain ⟨st, hst, hargs, hq⟩ := ih hsp1 hnd.2 (pre ++ [nv.2])
      (strReplace q (":" ++ nv.1) ("$" ++ itoa ((pre.length + 1 : Nat) : Int)))
      ((nv.1, pre.length + 1) :: fm) hfm1
    have hlen : (pre ++ [nv.2]).length = pre.length + 1 := by simp
    rw [hlen] at hst hq
    refine ⟨st, ?_, ?_, ?_⟩
    · simp only [List.length_cons, convertLoop, hstep]
      exact hst
    · rw [hargs]; simp
    · intro m hm
      have hwf : ∀ p ∈ placeholderTable (pre.length + 1) (l.map (fun nv => nv.1)) ++ m,
          WFEntry p := by
        intro p hp
        rcases List.mem_append.mp hp with hp | hp
        · refine placeholderTable_wf _ ?_ _ p hp
          intro n hn
          obtain ⟨x, hx, rfl⟩ := List.mem_map.mp hn
          exact hsp1 x hx
        · exact hm p hp
      rw [hq m hm, strReplace_placeholder_data,
        substAux_compose _ (placeholder_entry_wf nv.1 (pre.length + 1) hnv.1 hnv.2) _ hwf
          q.data.length q.data (Nat.le_refl _)]
      rfl

/-- C1: for every query and every list of named arguments whose names are ASCII
identifiers, pairwise distinct and none a prefix of another,
`convertNamedToPositionalArgs` returns with a nil error, with the argument
values in the original order, and with the query in which every occurrence of
`":" ++ name_i` is replaced by `"$" ++ (i + 1)`; no `":" ++ name_i` remains in
the returned query. -/
theorem convert_distinct_named (query : String) (nvs : List (String × Value))
    (hid : ∀ nv ∈ nvs, isAsciiIdentifier nv.1 = true)
    (hpf : nvs.Pairwise (fun a b => ¬ a.1.data <+: b.1.data ∧ ¬ b.1.data <+: a.1.data)) :
    convertNamedToPositionalArgs query (nvs.map (fun nv => sqlNamed nv.1 nv.2)) =
      some (substitutePlaceholders (nvs.map (fun nv => nv.1)) query,
        nvs.map (fun nv => nv.2), none) ∧
    ∀ nv ∈ nvs, ¬ (":" ++ nv.1).data <:+:
      (substitutePlaceholders (nvs.map (fun nv => nv.1)) query).data := by
  have hsp : ∀ nv ∈ nvs, ':' ∉ nv.1.data ∧ '$' ∉ nv.1.data :=
    fun nv hnv => identifier_no_special nv.1 (hid nv hnv)
  have hnd : nvs.Pairwise (fun a b => a.1 ≠ b.1) := by
    refine hpf.imp ?_
    intro a b hab heq
    exact hab.1 (heq ▸ List.prefix_refl _)
  have hwf : ∀ p ∈ placeholderTable 0 (nvs.map (fun nv => nv.1)), WFEntry p := by
    refine placeholderTable_wf _ ?_ 0
    intro n hn
    obtain ⟨x, hx, rfl⟩ := List.mem_map.mp hn
    exact hsp x hx
  constructor
  · obtain ⟨st, hst, hargs, hq⟩ := convertLoop_distinct nvs hsp hnd [] query [] (by simp)
    have hquery : st.query = substitutePlaceholders (nvs.map (fun nv => nv.1)) query := by
      have h := hq [] (by simp)
      rw [substAux_empty_table] at h
      simp only [List.length_nil, List.append_nil] at h
      simp only [substitutePlaceholders]
      rw [← h]
    simp only [List.length_nil, List.nil_append] at hst hargs
    simp only [convertNamedToPositionalArgs, List.length_map, hst, hargs, hquery]
  · intro nv hnv
    simp only [substitutePlaceholders]
    have hmem : ∀ (l : List String) (i : Nat), nv.1 ∈ l →
        ∃ k : Nat, ((":" ++ nv.1).data, ("$" ++ itoa (k : Int)).data) ∈ placeholderTable i l := by
      intro l
      induction l with
      | nil => intro i h; simp at h
      | cons a l ih =>
        intro i h
        rcases List.mem_cons.mp h with h | h
        · exact ⟨i + 1, by simp [placeholderTable, h]⟩
        · obtain ⟨k, hk⟩ := ih (i + 1) h
          exact ⟨k, by simp only [placeholderTable]; exact List.mem_cons_of_mem _ hk⟩
    obtain ⟨k, hk⟩ := hmem (nvs.map (fun nv => nv.1)) 0 (List.mem_map.mpr ⟨nv, hnv, rfl⟩)
    exact not_occurs_substAux _ hwf _ hk query.data.length query.data (Nat.le_refl _)

/-- Witness of C1: the query and the four named arguments of the test
`TestReplacementOfNamedWithPositionalArgs`. -/
theorem convert_distinct_named_witness :
    convertNamedToPositionalArgs "SELECT * FROM :table WHERE :v1 = :v2 AND :v3 = :v3"
      [sqlNamed "table" (Value.str "SOME_TABLE"), sqlNamed "v1" (Value.str "VALUE_1"),
       sqlNamed "v2" (Value.str "VALUE_2"), sqlNamed "v3" (Value.str "VALUE_3")] =
      some ("SELECT * FROM $1 WHERE $2 = $3 AND $4 = $4",
        [Value.str "SOME_TABLE", Value.str "VALUE_1", Value.str "VALUE_2", Value.str "VALUE_3"],
        none) :=
  (convert_distinct_named "SELECT * FROM :table WHERE :v1 = :v2 AND :v3 = :v3"
    [("table", Value.str "SOME_TABLE"), ("v1", Value.str "VALUE_1"),
     ("v2", Value.str "VALUE_2"), ("v3", Value.str "VALUE_3")]
    (by decide) (by decide)).1.trans (by decide)

/-! ## Theorems: `convertNamedToPositionalArgs` at concrete inputs -/

/-- Whenever `convertNamedToPositionalArgs` returns, its error is nil. -/
theorem convert_error_nil (query : String) (args : List Value)
    (r : String × List Value × Option GoError)
    (h : convertNamedToPositionalArgs query args = some r) : r.2.2 = none := by
  unfold convertNamedToPositionalArgs at h
  split at h
  · cases h; rfl
  · cases h

/-- C2 (the code at the failing input): for the named arguments
`[("a","X"),("b","Y"),("a","X")]` and a query referencing `:a`, `:b`, `:a`,
`convertNamedToPositionalArgs` does not return; the type assertion on
`args[existingPosition]` hits the plain value written at index 1 and panics. -/
theorem convert_repeated_name_panics :
    convertNamedToPositionalArgs "SELECT :a, :b, :a"
      [sqlNamed "a" (Value.str "X"), sqlNamed "b" (Value.str "Y"),
       sqlNamed "a" (Value.str "X")] = none := by
  decide

/-- For the repeated name in `[("a","X"),("a","X")]` the function returns, and
the second argument is still the `sql.NamedArg`: the argument list keeps its
length. -/
theorem convert_repeated_name_keeps_length :
    convertNamedToPositionalArgs "SELECT :a, :a"
      [sqlNamed "a" (Value.str "X"), sqlNamed "a" (Value.str "X")] =
      some ("SELECT $1, $1", [Value.str "X", Value.named "a" (Value.str "X")], none) := by
  decide

/-- C3 (the code at the failing input): for the test case that mixes the named
arguments `v2`, `v3`, `v1` with the plain value `SOME_TABLE`,
`convertNamedToPositionalArgs` returns a rewritten query and a nil error. -/
theorem convert_mixed_args_no_error :
    convertNamedToPositionalArgs "SELECT * FROM :table WHERE :v1 = :v2 AND :v3 IN ?"
      [sqlNamed "v2" (Value.str "VALUE_2"), sqlNamed "v3" (Value.str "VALUE_3"),
       sqlNamed "v1" (Value.str "VALUE_1"), Value.str "SOME_TABLE"] =
      some ("SELECT * FROM :table WHERE $3 = $1 AND $2 IN ?",
        [Value.str "VALUE_2", Value.str "VALUE_3", Value.str "VALUE_1", Value.str "SOME_TABLE"],
        none) := by
  decide

/-- C4 (the code at the failing input): with only `table`, `v1` and `v2`
supplied, `convertNamedToPositionalArgs` returns a nil error and a query in
which the placeholder `:v3` is left in place. -/
theorem convert_missing_arg_no_error :
    convertNamedToPositionalArgs "SELECT * FROM :table WHERE :v1 = :v2 AND :v3 = :v3"
      [sqlNamed "table" (Value.str "SOME_TABLE"), sqlNamed "v1" (Value.str "VALUE_1"),
       sqlNamed "v2" (Value.str "VALUE_2")] =
      some ("SELECT * FROM $1 WHERE $2 = $3 AND :v3 = :v3",
        [Value.str "SOME_TABLE", Value.str "VALUE_1", Value.str "VALUE_2"], none) := by
  decide

/-- C5 (the code at the failing input): the Postgres rendering of the back-off
filter for an interval of 300 seconds, with `Status` resolving to `status` and
`StatusCreatedAt` to `status_created`, passed through
`convertNamedToPositionalArgs`, yields the second placeholder `$1ER` instead of
`$2`: the replacement of `:rifCSR` also rewrites the head of `:rifCSRER`. -/
theorem reconcileInterval_positional_query_broken :
    convertNamedToPositionalArgs
      (({ reconcileInterval := 300000000000 } : reconcileIntervalFilter).Filter DbType.Postgres
        (fun c => if c = "Status" then Except.ok "status" else Except.ok "status_created")).1.sql
      (({ reconcileInterval := 300000000000 } : reconcileIntervalFilter).Filter DbType.Postgres
        (fun c => if c = "Status" then Except.ok "status" else Except.ok "status_created")).1.args =
      some ("status IN ($1, $1ER, $3) AND $4 <= NOW() - INTERVAL $5",
        [Value.status ClusterStatus.Ready, Value.status ClusterStatus.ReconcileErrorRetryable,
         Value.status ClusterStatus.DeleteErrorRetryable, Value.str "status_created",
         Value.str "300 SECOND"], none) := by
  decide

/-! ## Theorems: the status filter -/

theorem statusesToStrings_eq (sf : statusFilter) : sf.statusesToStrings = sf.allowedStatuses := by
  have h : ∀ (l acc : List String),
      l.foldl (fun result status => result ++ [status]) acc = acc ++ l := by
    intro l
    induction l with
    | nil => intro acc; simp
    | cons a l ih => intro acc; simp [ih]
  simpa [statusFilter.statusesToStrings] using h sf.allowedStatuses []

theorem statusArgs_fst (pfx : Char) (l : List String) (i : Nat) :
    (statusArgs pfx i l).1 =
      (List.range l.length).map (fun k => String.singleton pfx ++ ("sf" ++ itoa ((i + k : Nat) : Int))) := by
  induction l generalizing i with
  | nil => simp [statusArgs]
  | cons a l ih =>
    simp only [statusArgs, List.length_cons, List.range_succ_eq_map, List.map_cons, List.map_map]
    rw [ih (i + 1)]
    simp only [Nat.add_zero, List.cons.injEq, true_and]
    apply List.map_congr_left
    intro k _
    simp only [Function.comp, Nat.succ_eq_add_one]
    rw [show i + 1 + k = i + (k + 1) by omega]

theorem statusArgs_snd (pfx : Char) (l : List String) (i : Nat) :
    (statusArgs pfx i l).2 =
      (l.enumFrom i).map (fun p => Value.named ("sf" ++ itoa (p.1 : Int)) (Value.str p.2)) := by
  induction l generalizing i with
  | nil => simp [statusArgs]
  | cons a l ih =>
    simp only [statusArgs, List.enumFrom_cons, List.map_cons, sqlNamed]
    rw [ih (i + 1)]

theorem strJoin_singleton (s sep : String) : strJoin [s] sep = s := by
  simp [strJoin, String.intercalate, String.intercalate.go]

/-- What the IN branch of `statusFilter.Filter` computes as coded: for Postgres
and SQLite and a list of two or more allowed statuses, when the Status column
resolves to `S`, the text is `<pfx>sfStatusColName IN (<pfx>sf0,...,<pfx>sf(n-1))`
and the arguments are the named arguments `sf_i` with value `s_i` in input
order followed by the named argument `sfStatusColName` with value `S`. The
column name is bound as data here, unlike in the equality branch. -/
theorem statusFilter_in_clause (statuses : List String) (dbType : DbType) (pfx : Char)
    (statusColHdr : ColumnHandler) (S : String)
    (hlen : 2 ≤ statuses.length)
    (hpfx : namedParameterPrefix dbType = some pfx)
    (hcol : statusColHdr StatusColumnName = Except.ok S) :
    ({ allowedStatuses := statuses } : statusFilter).Filter dbType statusColHdr =
      ({ sql := String.singleton pfx ++ "sfStatusColName IN (" ++
                  strJoin ((List.range statuses.length).map
                    (fun (i : Nat) => String.singleton pfx ++ ("sf" ++ itoa (i : Int)))) "," ++ ")"
         args := statuses.enum.map (fun p => Value.named ("sf" ++ itoa (p.1 : Int)) (Value.str p.2))
                  ++ [Value.named "sfStatusColName" (Value.str S)] }, none) := by
  have hp : statusFilterPrefix dbType = pfx := by
    cases dbType with
    | Postgres => exact Option.some.inj hpfx
    | SQLite => exact Option.some.inj hpfx
    | other n => exact Option.noConfusion hpfx
  have hgt : statuses.length > 1 := by omega
  simp only [statusFilter.Filter, hcol, statusesToStrings_eq, hp, hgt, if_true,
    statusArgs_fst, statusArgs_snd, Nat.zero_add, sqlNamed, List.enum]

/-- An instance of `statusFilter_in_clause`: three statuses rendered for
SQLite. -/
theorem statusFilter_in_clause_witness :
    ({ allowedStatuses := ["ready", "error", "deleting"] } : statusFilter).Filter DbType.SQLite
        (fun c => Except.ok c) =
      ({ sql := "@sfStatusColName IN (@sf0,@sf1,@sf2)"
         args := [Value.named "sf0" (Value.str "ready"), Value.named "sf1" (Value.str "error"),
                  Value.named "sf2" (Value.str "deleting"),
                  Value.named "sfStatusColName" (Value.str "Status")] }, none) :=
  statusFilter_in_clause ["ready", "error", "deleting"] DbType.SQLite '@' (fun c => Except.ok c)
    "Status" (by decide) rfl rfl

/-- C6 (the code at the failing input): for the two statuses `a`, `b` on
Postgres, with the Status column resolving to `Status`, the bound arguments are
not exactly the two named arguments `sf0 = a`, `sf1 = b`; the column name
`Status` is bound as a third argument, `sfStatusColName`. -/
theorem statusFilter_in_clause_extra_argument :
    (({ allowedStatuses := ["a", "b"] } : statusFilter).Filter DbType.Postgres
        (fun c => Except.ok c)).1.args ≠
        [Value.named "sf0" (Value.str "a"), Value.named "sf1" (Value.str "b")] ∧
    (({ allowedStatuses := ["a", "b"] } : statusFilter).Filter DbType.Postgres
        (fun c => Except.ok c)).1.args =
        [Value.named "sf0" (Value.str "a"), Value.named "sf1" (Value.str "b"),
         Value.named "sfStatusColName" (Value.str "Status")] := by
  decide

/-- C7: for Postgres and SQLite and exactly one allowed status `s`, when the
Status column resolves to `S`, `statusFilter.Filter` returns no error, the text
`S = <pfx>stausFilterValue` and exactly one bound argument, the named argument
`stausFilterValue` whose value is the string `s` itself. -/
theorem statusFilter_single_status (s : String) (dbType : DbType) (pfx : Char)
    (statusColHdr : ColumnHandler) (S : String)
    (hpfx : namedParameterPrefix dbType = some pfx)
    (hcol : statusColHdr StatusColumnName = Except.ok S) :
    ({ allowedStatuses := [s] } : statusFilter).Filter dbType statusColHdr =
      ({ sql := S ++ " = " ++ String.singleton pfx ++ "stausFilterValue"
         args := [Value.named "stausFilterValue" (Value.str s)] }, none) := by
  have hp : statusFilterPrefix dbType = pfx := by
    cases dbType with
    | Postgres => exact Option.some.inj hpfx
    | SQLite => exact Option.some.inj hpfx
    | other n => exact Option.noConfusion hpfx
  simp [statusFilter.Filter, hcol, statusesToStrings_eq, hp, strJoin_singleton, sqlNamed]

/-- Witness of C7: the single status `ready` rendered for Postgres. -/
theorem statusFilter_single_status_witness :
    ({ allowedStatuses := ["ready"] } : statusFilter).Filter DbType.Postgres
        (fun c => Except.ok ("t." ++ c)) =
      ({ sql := "t.Status = :stausFilterValue"
         args := [Value.named "stausFilterValue" (Value.str "ready")] }, none) :=
  statusFilter_single_status "ready" DbType.Postgres ':' (fun c => Except.ok ("t." ++ c))
    "t.Status" rfl rfl

/-! ## Theorems: errors of the filters -/

/-- The four filters with a `default:` branch reject every dialect other than
Postgres and SQLite once their columns resolve. -/
theorem default_branch_rejects (formatFloat : F64 → String) (f : ConcreteFilter) (name : String)
    (colHdr : ColumnHandler) (hok : firstFailure colHdr f.resolvedColumns = none)
    (hf : ∀ sf, f ≠ ConcreteFilter.status sf) :
    f.Filter formatFloat (DbType.other name) colHdr =
      failWith (unsupportedDbType (DbType.other name)) := by
  cases f with
  | status sf => exact absurd rfl (hf sf)
  | reconcileInterval rif =>
    simp only [ConcreteFilter.resolvedColumns, firstFailure] at hok
    simp only [ConcreteFilter.Filter, reconcileIntervalFilter.Filter]
    cases h1 : colHdr StatusColumnName <;> simp [h1] at hok ⊢
    cases h2 : colHdr StatusCreatedAtColumnName <;> simp [h2] at hok ⊢
  | createdInterval cif =>
    simp only [ConcreteFilter.resolvedColumns, firstFailure] at hok
    simp only [ConcreteFilter.Filter, createdIntervalFilter.Filter]
    cases h1 : colHdr RuntimeIDColumnName <;> simp [h1] at hok ⊢
    cases h2 : colHdr CreatedAtColumnName <;> simp [h2] at hok ⊢
  | runtimeID r =>
    simp only [ConcreteFilter.resolvedColumns, firstFailure] at hok
    simp only [ConcreteFilter.Filter, runtimeIDFilter.Filter]
    cases h1 : colHdr RuntimeIDColumnName <;> simp [h1] at hok ⊢
  | configID r =>
    simp only [ConcreteFilter.resolvedColumns, firstFailure] at hok
    simp only [ConcreteFilter.Filter, configIDFilter.Filter]
    cases h1 : colHdr ConfigIDColumnName <;> simp [h1] at hok ⊢

/-- C8 (the code at the failing input): asked to render the single status
`ready` for the dialect `mysql`, with every column resolving,
`statusFilter.Filter` returns a nil error together with a rendering whose
placeholder character is the zero rune. -/
theorem statusFilter_unsupported_dialect_no_error :
    ({ allowedStatuses := ["ready"] } : statusFilter).Filter (DbType.other "mysql")
        (fun c => Except.ok c) =
      ({ sql := "Status = " ++ String.singleton (Char.ofNat 0) ++ "stausFilterValue"
         args := [Value.named "stausFilterValue" (Value.str "ready")] }, none) := by
  decide

/-- C9: if `ColumnName` fails with `e` for the first failing logical column a
filter resolves, then `Filter` returns exactly `e` together with the empty SQL
text and the empty argument list, for every filter and every dialect. -/
theorem column_failure_propagates (formatFloat : F64 → String) (f : ConcreteFilter)
    (dbType : DbType) (colHdr : ColumnHandler) (e : GoError)
    (hfail : firstFailure colHdr f.resolvedColumns = some e) :
    f.Filter formatFloat dbType colHdr = ({ sql := "", args := [] }, some e) := by
  cases f with
  | status sf =>
    simp only [ConcreteFilter.resolvedColumns, firstFailure] at hfail
    simp only [ConcreteFilter.Filter, statusFilter.Filter]
    cases h1 : colHdr StatusColumnName <;> simp [h1] at hfail ⊢
    simp [failWith, hfail]
  | reconcileInterval rif =>
    simp only [ConcreteFilter.resolvedColumns, firstFailure] at hfail
    simp only [ConcreteFilter.Filter, reconcileIntervalFilter.Filter]
    cases h1 : colHdr StatusColumnName <;> simp [h1] at hfail ⊢
    · simp [failWith, hfail]
    · cases h2 : colHdr StatusCreatedAtColumnName <;> simp [h2] at hfail ⊢
      simp [failWith, hfail]
  | createdInterval cif =>
    simp only [ConcreteFilter.resolvedColumns, firstFailure] at hfail
    simp only [ConcreteFilter.Filter, createdIntervalFilter.Filter]
    cases h1 : colHdr RuntimeIDColumnName <;> simp [h1] at hfail ⊢
    · simp [failWith, hfail]
    · cases h2 : colHdr CreatedAtColumnName <;> simp [h2] at hfail ⊢
      simp [failWith, hfail]
  | runtimeID r =>
    simp only [ConcreteFilter.resolvedColumns, firstFailure] at hfail
    simp only [ConcreteFilter.Filter, runtimeIDFilter.Filter]
    cases h1 : colHdr RuntimeIDColumnName <;> simp [h1] at hfail ⊢
    simp [failWith, hfail]
  | configID r =>
    simp only [ConcreteFilter.resolvedColumns, firstFailure] at hfail
    simp only [ConcreteFilter.Filter, configIDFilter.Filter]
    cases h1 : colHdr ConfigIDColumnName <;> simp [h1] at hfail ⊢
    simp [failWith, hfail]

/-- Witness of C9: the back-off filter on SQLite with a handler that resolves
`Status` but not `StatusCreatedAt`. -/
theorem column_failure_propagates_witness :
    (ConcreteFilter.reconcileInterval { reconcileInterval := 5000000000 }).Filter
        (fun _ => "") DbType.SQLite
        (fun c => if c = "Status" then Except.ok "status" else Except.error ("no column " ++ c)) =
      ({ sql := "", args := [] }, some "no column StatusCreatedAt") :=
  column_failure_propagates (fun _ => "")
    (ConcreteFilter.reconcileInterval { reconcileInterval := 5000000000 }) DbType.SQLite
    (fun c => if c = "Status" then Except.ok "status" else Except.error ("no column " ++ c))
    "no column StatusCreatedAt" (by decide)

/-- C10 (the code at the failing input): rendered for Postgres with every
column resolving, `configIDFilter.Filter` succeeds with the text `? = ?` and
two plain values; neither bound argument is a named argument. -/
theorem configIDFilter_postgres_positional :
    ({ configID := 7 } : configIDFilter).Filter DbType.Postgres (fun c => Except.ok c) =
      ({ sql := "? = ?", args := [Value.str "ConfigID", Value.int64 7] }, none) := by
  decide

/-! ## Theorems: the worker -/

theorem componentsReady_ok (w : worker) (op : OperationEntity) (ops : List OperationEntity)
    (hrepo : w.reconRepo (componentsReadyQuery op) = Except.ok ops) :
    w.componentsReady op = Except.ok (ops.map (fun o => o.Component)) := by
  have h : ∀ (l : List OperationEntity) (acc : List String),
      l.foldl (fun result opReady => result ++ [opReady.Component]) acc =
        acc ++ l.map (fun o => o.Component) := by
    intro l
    induction l with
    | nil => intro acc; simp
    | cons a l ih => intro acc; simp [ih]
  simp only [worker.componentsReady, hrepo, h, List.nil_append]

theorem isProcessable_eq_false_iff (w : worker) (op : OperationEntity) :
    w.isProcessable op = false ↔
      (op.State = OperationState.Done ∨ op.State = OperationState.Error ∨
        op.State = OperationState.InProgress) := by
  cases hs : op.State <;> simp [worker.isProcessable, hs]

/-- C13: `isProcessable` is false exactly for the states `Done`, `Error` and
`InProgress`, and `run` returns nil without any Repository call and without any
Invoker call exactly for an operation in one of these three states, for every
cluster state, every context and every `maxOpRetries`. -/
theorem worker_gate (w : worker) (ctxErr : Nat → Option GoError) (clusterState : ClusterState)
    (op : OperationEntity) (maxOpRetries : Int) :
    (w.isProcessable op = false ↔
      (op.State = OperationState.Done ∨ op.State = OperationState.Error ∨
        op.State = OperationState.InProgress)) ∧
    (w.run ctxErr clusterState op maxOpRetries =
        { err := none, repoCalls := [], invokerCalls := [] } ↔
      (op.State = OperationState.Done ∨ op.State = OperationState.Error ∨
        op.State = OperationState.InProgress)) := by
  refine ⟨isProcessable_eq_false_iff w op, ?_⟩
  rw [← isProcessable_eq_false_iff w op]
  constructor
  · intro h
    by_contra hp
    have hp1 : w.isProcessable op = true := by simpa using hp
    have hcalls := congrArg RunResult.repoCalls h
    simp only [worker.run, hp1] at hcalls
    cases hc : w.componentsReady op with
    | error e => simp [hc] at hcalls
    | ok comps =>
      cases hg : clusterState.GetComponent op.Component <;> simp [hc, hg] at hcalls
  · intro h
    simp [worker.run, h]

theorem retryLoop_calls_ge (retryable ctxErr : Nat → Option GoError) (remaining : Nat) :
    ∀ (n : Nat) (errorLog : List GoError),
      n ≤ (retryLoop retryable ctxErr remaining n errorLog).calls := by
  induction remaining with
  | zero => intro n errorLog; simp [retryLoop]
  | succ r ih =>
    intro n errorLog
    simp only [retryLoop]
    split
    · simp
    · split
      · simp
      · split
        · simp
        · exact Nat.le_trans (Nat.le_succ n) (ih (n + 1) _)

theorem retryLoop_calls_pos (retryable ctxErr : Nat → Option GoError) (remaining n : Nat)
    (errorLog : List GoError) :
    n + 1 ≤ (retryLoop retryable ctxErr (remaining + 1) n errorLog).calls := by
  simp only [retryLoop]
  split
  · simp
  · split
    · simp
    · split
      · simp
      · exact retryLoop_calls_ge retryable ctxErr remaining (n + 1) _

/-- C14 (as amended): for a processable operation whose dependency query
succeeds, every call of the Invoker receives as `ComponentsReady` the list of
the `Component` values of the returned operations, in result order and with
one entry per returned operation; with a configured component, at least one
attempt and a context that is not done, the Invoker is called. -/
theorem ready_list_passed (w : worker) (ctxErr : Nat → Option GoError)
    (clusterState : ClusterState) (op : OperationEntity) (maxOpRetries : Int)
    (ops : List OperationEntity)
    (hproc : w.isProcessable op = true)
    (hrepo : w.reconRepo (componentsReadyQuery op) = Except.ok ops) :
    (∀ p ∈ (w.run ctxErr clusterState op maxOpRetries).invokerCalls,
        p.ComponentsReady = ops.map (fun o => o.Component)) ∧
    (∀ comp, clusterState.GetComponent op.Component = some comp →
        0 < (w.maxRetries % 2 ^ 64).toNat → ctxErr 0 = none →
        (w.run ctxErr clusterState op maxOpRetries).invokerCalls ≠ []) := by
  have hc := componentsReady_ok w op ops hrepo
  constructor
  · intro p hp
    simp only [worker.run, hproc, hc] at hp
    cases hg : clusterState.GetComponent op.Component with
    | none => simp [hg] at hp
    | some comp =>
      simp only [hg, Bool.not_true, Bool.false_eq_true, if_false] at hp
      rw [List.eq_of_mem_replicate hp]
  · intro comp hg hpos hctx
    simp only [worker.run, hproc, hc, hg, retryDo, hctx, Bool.not_true, Bool.false_eq_true,
      if_false]
    obtain ⟨r, hr⟩ : ∃ r, (w.maxRetries % 2 ^ 64).toNat = r + 1 := ⟨_, (Nat.succ_pred_eq_of_pos hpos).symm⟩
    rw [hr]
    have hpos1 := retryLoop_calls_pos (fun n => w.invoker n
      { ComponentToReconcile := comp, ComponentsReady := ops.map (fun o => o.Component),
        SchedulingID := op.SchedulingID, CorrelationID := op.CorrelationID,
        ClusterState := clusterState, MaxOperationRetries := maxOpRetries,
        OpType := op.OpType }) ctxErr r 0 []
    intro hnil
    have hlen := congrArg List.length hnil
    simp only [List.length_replicate, List.length_nil] at hlen
    omega

/-- Witness of C14 (as amended): a query result for the components `A` and `B`
passes exactly `["A", "B"]`. -/
theorem ready_list_passed_witness :
    (∀ p ∈ ((sampleWorker [doneOp "A", doneOp "B"] (fun _ => false) 3).run (fun _ => none)
        (sampleCluster ["istio"]) sampleOp 5).invokerCalls,
        p.ComponentsReady = ["A", "B"]) ∧
    (∀ comp, (sampleCluster ["istio"]).GetComponent sampleOp.Component = some comp →
        0 < ((sampleWorker [doneOp "A", doneOp "B"] (fun _ => false) 3).maxRetries % 2 ^ 64).toNat →
        (fun _ => none : Nat → Option GoError) 0 = none →
        ((sampleWorker [doneOp "A", doneOp "B"] (fun _ => false) 3).run (fun _ => none)
          (sampleCluster ["istio"]) sampleOp 5).invokerCalls ≠ []) :=
  ready_list_passed (sampleWorker [doneOp "A", doneOp "B"] (fun _ => false) 3) (fun _ => none)
    (sampleCluster ["istio"]) sampleOp 5 [doneOp "A", doneOp "B"] (by decide) rfl

/-- C14 (as stated) fails: when the query returns two operations of the
component `A`, the Invoker receives `["A", "A"]`, which holds `A` twice. -/
theorem ready_list_not_distinct :
    ((sampleWorker [doneOp "A", doneOp "A"] (fun _ => false) 3).run (fun _ => none)
        (sampleCluster ["istio"]) sampleOp 5).invokerCalls.map (fun p => p.ComponentsReady) =
      [["A", "A"]] ∧
    ¬ (["A", "A"] : List String).Nodup := by
  decide

/-- C15: for a processable operation whose dependency query succeeds, if the
cluster configuration has no component of the operation's name, `run` returns
the error `cluster '..' has no component '..' configured` and the Invoker is
not called, for every retry count. -/
theorem missing_component_fatal (w : worker) (ctxErr : Nat → Option GoError)
    (clusterState : ClusterState) (op : OperationEntity) (maxOpRetries : Int)
    (ops : List OperationEntity)
    (hproc : w.isProcessable op = true)
    (hrepo : w.reconRepo (componentsReadyQuery op) = Except.ok ops)
    (hcomp : clusterState.GetComponent op.Component = none) :
    (w.run ctxErr clusterState op maxOpRetries).err =
        some (RunError.err ("cluster '" ++ clusterState.RuntimeID ++
          "' has no component '" ++ op.Component ++ "' configured")) ∧
    (w.run ctxErr clusterState op maxOpRetries).err ≠ none ∧
    (w.run ctxErr clusterState op maxOpRetries).invokerCalls = [] := by
  have hc := componentsReady_ok w op ops hrepo
  simp [worker.run, hproc, hc, hcomp]

/-- Witness of C15: the component `istio` is not among the configured
components `["serverless"]`. -/
theorem missing_component_fatal_witness :
    ((sampleWorker [doneOp "A"] (fun _ => false) 3).run (fun _ => none)
        (sampleCluster ["serverless"]) sampleOp 5).err =
        some (RunError.err ("cluster '" ++ (sampleCluster ["serverless"]).RuntimeID ++
          "' has no component '" ++ sampleOp.Component ++ "' configured")) ∧
    ((sampleWorker [doneOp "A"] (fun _ => false) 3).run (fun _ => none)
        (sampleCluster ["serverless"]) sampleOp 5).err ≠ none ∧
    ((sampleWorker [doneOp "A"] (fun _ => false) 3).run (fun _ => none)
        (sampleCluster ["serverless"]) sampleOp 5).invokerCalls = [] :=
  missing_component_fatal (sampleWorker [doneOp "A"] (fun _ => false) 3) (fun _ => none)
    (sampleCluster ["serverless"]) sampleOp 5 [doneOp "A"] (by decide) rfl (by decide)

theorem retryLoop_all_fail (retryable ctxErr : Nat → Option GoError)
    (hctx : ∀ k, ctxErr k = none) (remaining : Nat) :
    ∀ (n : Nat) (errorLog : List GoError),
      (∀ i, n ≤ i → i < n + (remaining + 1) → retryable i ≠ none) →
      (retryLoop retryable ctxErr (remaining + 1) n errorLog).calls = n + (remaining + 1) ∧
      (retryLoop retryable ctxErr (remaining + 1) n errorLog).err ≠ none := by
  induction remaining with
  | zero =>
    intro n errorLog hfail
    have h0 := hfail n (Nat.le_refl n) (by omega)
    cases hr : retryable n with
    | none => exact absurd hr h0
    | some e => simp [retryLoop, hr]
  | succ r ih =>
    intro n errorLog hfail
    have h0 := hfail n (Nat.le_refl n) (by omega)
    cases hr : retryable n with
    | none => exact absurd hr h0
    | some e =>
      have hrec := ih (n + 1) (errorLog ++ [e]) (fun i hi1 hi2 => hfail i (by omega) (by omega))
      rw [retryLoop]
      simp only [hr, Nat.succ_ne_zero, if_false, hctx]
      constructor
      · rw [hrec.1]; omega
      · exact hrec.2

theorem retryLoop_first_success (retryable ctxErr : Nat → Option GoError)
    (hctx : ∀ k, ctxErr k = none) (remaining : Nat) :
    ∀ (n j : Nat) (errorLog : List GoError), j < remaining →
      (∀ i, n ≤ i → i < n + j → retryable i ≠ none) → retryable (n + j) = none →
      (retryLoop retryable ctxErr remaining n errorLog).calls = n + j + 1 ∧
      (retryLoop retryable ctxErr remaining n errorLog).err = none := by
  induction remaining with
  | zero => intro n j errorLog hj; omega
  | succ r ih =>
    intro n j errorLog hj hfail hok
    cases j with
    | zero =>
      have hok0 : retryable n = none := by simpa using hok
      simp [retryLoop, hok0]
    | succ j =>
      have h0 := hfail n (Nat.le_refl n) (by omega)
      cases hr : retryable n with
      | none => exact absurd hr h0
      | some e =>
        have hr0 : r ≠ 0 := by omega
        have hrec := ih (n + 1) j (errorLog ++ [e]) (by omega)
          (fun i hi1 hi2 => hfail i (by omega) (by omega))
          (by rw [show n + 1 + j = n + (j + 1) by omega]; exact hok)
        rw [retryLoop]
        simp only [hr, hr0, if_false, hctx]
        constructor
        · rw [hrec.1]; omega
        · exact hrec.2

/-- C16: for a processable operation whose dependency query succeeds and whose
component is configured, with a configured attempt count `n >= 1` and a context
that is never done: if the Invoker fails on every call, `run` calls it exactly
`n` times and returns a non-nil error; if the Invoker fails on the attempts
before the `k`-th and succeeds on the `k`-th, `k <= n`, `run` calls it exactly
`k` times and returns nil. -/
theorem bounded_retry (w : worker) (ctxErr : Nat → Option GoError)
    (clusterState : ClusterState) (op : OperationEntity) (maxOpRetries : Int)
    (ops : List OperationEntity) (comp : Component) (n : Nat)
    (hproc : w.isProcessable op = true)
    (hrepo : w.reconRepo (componentsReadyQuery op) = Except.ok ops)
    (hcomp : clusterState.GetComponent op.Component = some comp)
    (hn : 1 ≤ n) (hn63 : n < 2 ^ 63) (hmax : w.maxRetries = (n : Int))
    (hctx : ∀ k, ctxErr k = none) :
    ((∀ i p, w.invoker i p ≠ none) →
      (w.run ctxErr clusterState op maxOpRetries).invokerCalls.length = n ∧
      (w.run ctxErr clusterState op maxOpRetries).err ≠ none) ∧
    (∀ k, 1 ≤ k → k ≤ n → (∀ i p, i + 1 < k → w.invoker i p ≠ none) →
      (∀ p, w.invoker (k - 1) p = none) →
      (w.run ctxErr clusterState op maxOpRetries).invokerCalls.length = k ∧
      (w.run ctxErr clusterState op maxOpRetries).err = none) := by
  have hc := componentsReady_ok w op ops hrepo
  have hatt : (w.maxRetries % 2 ^ 64).toNat = n := by
    rw [hmax]
    have h1 : ((n : Int)) % 2 ^ 64 = (n : Int) := by
      apply Int.emod_eq_of_lt
      · exact Int.natCast_nonneg n
      · have : (n : Int) < 2 ^ 63 := by exact_mod_cast hn63
        omega
    rw [h1, Int.toNat_ofNat]
  obtain ⟨r, hr⟩ : ∃ r, n = r + 1 := ⟨n - 1, by omega⟩
  constructor
  · intro hfail
    have hloop := retryLoop_all_fail (fun i => w.invoker i
      { ComponentToReconcile := comp, ComponentsReady := ops.map (fun o => o.Component),
        SchedulingID := op.SchedulingID, CorrelationID := op.CorrelationID,
        ClusterState := clusterState, MaxOperationRetries := maxOpRetries,
        OpType := op.OpType }) ctxErr hctx r 0 [] (fun i _ _ => hfail i _)
    simp only [worker.run, hproc, hc, hcomp, hatt, retryDo, hctx, Bool.not_true,
      Bool.false_eq_true, if_false, List.length_replicate, hr]
    constructor
    · rw [hloop.1]; omega
    · exact hloop.2
  · intro k hk1 hkn hfail hok
    have hloop := retryLoop_first_success (fun i => w.invoker i
      { ComponentToReconcile := comp, ComponentsReady := ops.map (fun o => o.Component),
        SchedulingID := op.SchedulingID, CorrelationID := op.CorrelationID,
        ClusterState := clusterState, MaxOperationRetries := maxOpRetries,
        OpType := op.OpType }) ctxErr hctx n 0 (k - 1) [] (by omega)
      (fun i _ hi => hfail i _ (by omega)) (by simpa using hok _)
    simp only [worker.run, hproc, hc, hcomp, hatt, retryDo, hctx, Bool.not_true,
      Bool.false_eq_true, if_false, List.length_replicate]
    constructor
    · rw [hloop.1]; omega
    · exact hloop.2

/-- Witness of C16: three configured attempts. An invoker that always fails is
called three times and `run` returns an error; an invoker that fails once and
then succeeds is called twice and `run` returns nil. -/
theorem bounded_retry_witness :
    ((sampleWorker [doneOp "A"] (fun _ => true) 3).run (fun _ => none) (sampleCluster ["istio"])
        sampleOp 5).invokerCalls.length = 3 ∧
    ((sampleWorker [doneOp "A"] (fun _ => true) 3).run (fun _ => none) (sampleCluster ["istio"])
        sampleOp 5).err ≠ none ∧
    ((sampleWorker [doneOp "A"] (fun i => i == 0) 3).run (fun _ => none) (sampleCluster ["istio"])
        sampleOp 5).invokerCalls.length = 2 ∧
    ((sampleWorker [doneOp "A"] (fun i => i == 0) 3).run (fun _ => none) (sampleCluster ["istio"])
        sampleOp 5).err = none := by
  have h1 := (bounded_retry (sampleWorker [doneOp "A"] (fun _ => true) 3) (fun _ => none)
    (sampleCluster ["istio"]) sampleOp 5 [doneOp "A"] { Name := "istio" } 3
    (by decide) rfl (by decide) (by decide) (by decide) rfl (fun _ => rfl)).1
    (fun i p => by simp [sampleWorker])
  have h2 := (bounded_retry (sampleWorker [doneOp "A"] (fun i => i == 0) 3) (fun _ => none)
    (sampleCluster ["istio"]) sampleOp 5 [doneOp "A"] { Name := "istio" } 3
    (by decide) rfl (by decide) (by decide) (by decide) rfl (fun _ => rfl)).2 2
    (by decide) (by decide) (fun i p hi => by
      have : i = 0 := by omega
      subst this
      simp [sampleWorker])
    (fun p => by simp [sampleWorker])
  exact ⟨h1.1, h1.2, h2.1, h2.2⟩

/-! ## Theorems: further properties of the rewriter and of the filters -/

/-- C18 (the code at the failing input): with the named arguments `v1` and
`v10`, the placeholder `:v10` is not resolved to its own position 2; the
replacement of `:v1` by `$1` rewrites its head and leaves `$10`. -/
theorem convert_shared_head_misresolved :
    convertNamedToPositionalArgs "SELECT :v1, :v10"
      [sqlNamed "v1" (Value.str "A"), sqlNamed "v10" (Value.str "B")] =
      some ("SELECT $1, $10", [Value.str "A", Value.str "B"], none) := by
  decide

/-- C19 (the code at the failing input): for the named arguments `a`, `b`, `a`
and every query, `convertNamedToPositionalArgs` ends in a run-time panic
instead of returning. -/
theorem convert_not_total (query : String) :
    convertNamedToPositionalArgs query
      [sqlNamed "a" (Value.str "X"), sqlNamed "b" (Value.str "Y"),
       sqlNamed "a" (Value.str "Z")] = none := by
  rfl

/-- C11 (the code at the failing input): on Postgres `createdIntervalFilter`
binds the whole seconds of the interval. An interval of 500ms is bound as
`0 SECOND`, and the intervals 1s and 1.5s are bound to the same arguments. -/
theorem createdInterval_postgres_drops_fraction (formatFloat : F64 → String) :
    (({ runtimeID := "r1", interval := 500000000 } : createdIntervalFilter).Filter formatFloat
        DbType.Postgres (fun c => Except.ok c)).1.args =
      [Value.named "cifRuntimeIDColName" (Value.str "RuntimeID"),
       Value.named "cifruntimeId" (Value.str "r1"),
       Value.named "cifCreatedColName" (Value.str "Created"),
       Value.named "createdIntervalFilterInterval" (Value.str "0 SECOND")] ∧
    (({ runtimeID := "r1", interval := 1000000000 } : createdIntervalFilter).Filter formatFloat
        DbType.Postgres (fun c => Except.ok c)).1.args =
    (({ runtimeID := "r1", interval := 1500000000 } : createdIntervalFilter).Filter formatFloat
        DbType.Postgres (fun c => Except.ok c)).1.args := by
  constructor
  · show [_, _, _, Value.named "createdIntervalFilterInterval"
      (Value.str (itoa (Duration.Seconds 500000000).toInt ++ " SECOND"))] = _
    have h : (Duration.Seconds 500000000).toInt = 0 := by decide
    rw [h]
    rfl
  · show [_, _, _, Value.named "createdIntervalFilterInterval"
      (Value.str (itoa (Duration.Seconds 1000000000).toInt ++ " SECOND"))] =
      [_, _, _, Value.named "createdIntervalFilterInterval"
      (Value.str (itoa (Duration.Seconds 1500000000).toInt ++ " SECOND"))]
    have h1 : (Duration.Seconds 1000000000).toInt = 1 := by decide
    have h2 : (Duration.Seconds 1500000000).toInt = 1 := by decide
    rw [h1, h2]

/-- The two branches of `statusFilter.Filter` side by side, as coded, for
Postgres and SQLite with the Status column resolving to `S`: for exactly one
status `s` the text is `S = <pfx>stausFilterValue`, with `S` inlined as the
left-hand side, and the only bound argument is the status `s`; for two or more
statuses the left-hand side of the text is the placeholder
`<pfx>sfStatusColName` and `S` is the value of the last bound argument. -/
theorem statusFilter_column_name (statuses : List String) (dbType : DbType) (pfx : Char)
    (statusColHdr : ColumnHandler) (S : String)
    (hpfx : namedParameterPrefix dbType = some pfx)
    (hcol : statusColHdr StatusColumnName = Except.ok S) :
    (∀ s, statuses = [s] →
      (({ allowedStatuses := statuses } : statusFilter).Filter dbType statusColHdr).1.sql =
          S ++ " = " ++ String.singleton pfx ++ "stausFilterValue" ∧
      (({ allowedStatuses := statuses } : statusFilter).Filter dbType statusColHdr).1.args =
          [Value.named "stausFilterValue" (Value.str s)]) ∧
    (2 ≤ statuses.length →
      (({ allowedStatuses := statuses } : statusFilter).Filter dbType statusColHdr).1.sql =
          String.singleton pfx ++ "sfStatusColName IN (" ++
            strJoin ((List.range statuses.length).map
              (fun (i : Nat) => String.singleton pfx ++ ("sf" ++ itoa (i : Int)))) "," ++ ")" ∧
      (({ allowedStatuses := statuses } : statusFilter).Filter dbType statusColHdr).1.args.getLast? =
          some (Value.named "sfStatusColName" (Value.str S))) := by
  have hp : statusFilterPrefix dbType = pfx := by
    cases dbType with
    | Postgres => exact Option.some.inj hpfx
    | SQLite => exact Option.some.inj hpfx
    | other n => exact Option.noConfusion hpfx
  constructor
  · intro s hs
    subst hs
    simp [statusFilter.Filter, hcol, statusesToStrings_eq, hp, strJoin_singleton, sqlNamed]
  · intro hlen
    have hgt : statuses.length > 1 := by omega
    simp only [statusFilter.Filter, hcol, statusesToStrings_eq, hp, hgt, if_true,
      statusArgs_fst, Nat.zero_add, sqlNamed, List.getLast?_append, List.getLast?_singleton,
      Option.or_some, and_self]

/-- An instance of `statusFilter_column_name`: the statuses `ready`, `error` on
Postgres with the Status column resolving to `status`. -/
theorem statusFilter_column_name_witness :
    (({ allowedStatuses := ["ready", "error"] } : statusFilter).Filter DbType.Postgres
        (fun _ => Except.ok "status")).1.sql = ":sfStatusColName IN (:sf0,:sf1)" ∧
    (({ allowedStatuses := ["ready", "error"] } : statusFilter).Filter DbType.Postgres
        (fun _ => Except.ok "status")).1.args.getLast? =
      some (Value.named "sfStatusColName" (Value.str "status")) :=
  (statusFilter_column_name ["ready", "error"] DbType.Postgres ':' (fun _ => Except.ok "status")
    "status" rfl rfl).2 (by decide)

/-- C17 (the code at the failing input): for the statuses `ready`, `error` on
Postgres with the Status column resolving to `status`, the text does not hold
`status` on its left-hand side but the placeholder `:sfStatusColName`, and a
bound argument has the column name `status` as its value; after
`convertNamedToPositionalArgs` the query is `$3 IN ($1,$2)` with `status` as
the third value. The single status `ready` renders `status = :stausFilterValue`
and binds only `ready`. -/
theorem statusFilter_column_name_bound :
    (({ allowedStatuses := ["ready", "error"] } : statusFilter).Filter DbType.Postgres
        (fun _ => Except.ok "status")).1.sql = ":sfStatusColName IN (:sf0,:sf1)" ∧
    Value.named "sfStatusColName" (Value.str "status") ∈
      (({ allowedStatuses := ["ready", "error"] } : statusFilter).Filter DbType.Postgres
        (fun _ => Except.ok "status")).1.args ∧
    convertNamedToPositionalArgs
      (({ allowedStatuses := ["ready", "error"] } : statusFilter).Filter DbType.Postgres
        (fun _ => Except.ok "status")).1.sql
      (({ allowedStatuses := ["ready", "error"] } : statusFilter).Filter DbType.Postgres
        (fun _ => Except.ok "status")).1.args =
      some ("$3 IN ($1,$2)", [Value.str "ready", Value.str "error", Value.str "status"], none) ∧
    ({ allowedStatuses := ["ready"] } : statusFilter).Filter DbType.Postgres
        (fun _ => Except.ok "status") =
      ({ sql := "status = :stausFilterValue"
         args := [Value.named "stausFilterValue" (Value.str "ready")] }, none) := by
  decide

/-- C20: for Postgres and SQLite and an empty list of allowed statuses, when
the Status column resolves to `S`, `statusFilter.Filter` returns no error, the
text `S = <pfx>stausFilterValue` and exactly one bound argument, whose value is
the empty string. -/
theorem statusFilter_empty_list (dbType : DbType) (pfx : Char)
    (statusColHdr : ColumnHandler) (S : String)
    (hpfx : namedParameterPrefix dbType = some pfx)
    (hcol : statusColHdr StatusColumnName = Except.ok S) :
    ({ allowedStatuses := [] } : statusFilter).Filter dbType statusColHdr =
      ({ sql := S ++ " = " ++ String.singleton pfx ++ "stausFilterValue"
         args := [Value.named "stausFilterValue" (Value.str "")] }, none) := by
  have hp : statusFilterPrefix dbType = pfx := by
    cases dbType with
    | Postgres => exact Option.some.inj hpfx
    | SQLite => exact Option.some.inj hpfx
    | other n => exact Option.noConfusion hpfx
  simp [statusFilter.Filter, hcol, statusesToStrings_eq, hp, strJoin, String.intercalate,
    sqlNamed]

/-- Witness of C20: the empty list rendered for SQLite. -/
theorem statusFilter_empty_list_witness :
    ({ allowedStatuses := [] } : statusFilter).Filter DbType.SQLite
        (fun c => Except.ok c) =
      ({ sql := "Status = @stausFilterValue"
         args := [Value.named "stausFilterValue" (Value.str "")] }, none) :=
  statusFilter_empty_list DbType.SQLite '@' (fun c => Except.ok c) "Status" rfl rfl

/-! ## Theorems: the seconds of a `Duration` -/

theorem log2FloorAux_le (fuel : Nat) :
    ∀ (n j : Nat), n < 2 ^ (j + 1) → log2FloorAux fuel n ≤ j := by
  induction fuel with
  | zero => intro n j _; simp [log2FloorAux]
  | succ fuel ih =>
    intro n j hn
    simp only [log2FloorAux]
    split
    · exact Nat.zero_le j
    · rename_i h2
      cases j with
      | zero => simp at hn; omega
      | succ j =>
        have hhalf : n / 2 < 2 ^ (j + 1) := by
          rw [Nat.div_lt_iff_lt_mul (by decide)]
          rw [Nat.pow_succ] at hn
          exact hn
        have := ih (n / 2) j hhalf
        omega

theorem le_log2FloorAux (fuel : Nat) :
    ∀ (n j : Nat), 2 ^ j ≤ n → j ≤ fuel → j ≤ log2FloorAux fuel n := by
  induction fuel with
  | zero => intro n j _ hj; omega
  | succ fuel ih =>
    intro n j hn hj
    cases j with
    | zero => exact Nat.zero_le _
    | succ j =>
      have hpos : 1 ≤ 2 ^ j := Nat.one_le_two_pow
      have h2 : ¬ n < 2 := by
        rw [Nat.pow_succ] at hn
        omega
      have hhalf : 2 ^ j ≤ n / 2 := by
        rw [Nat.le_div_iff_mul_le (by decide)]
        rw [Nat.pow_succ] at hn
        exact hn
      have := ih (n / 2) j hhalf (by omega)
      simp only [log2FloorAux, h2, if_false]
      omega

theorem log2Floor_le (n j : Nat) (hn : n < 2 ^ (j + 1)) : log2Floor n ≤ j :=
  log2FloorAux_le n n j hn

theorem le_log2Floor (n j : Nat) (hn : 2 ^ j ≤ n) : j ≤ log2Floor n :=
  le_log2FloorAux n n j hn (Nat.le_trans (Nat.le_of_lt (Nat.lt_two_pow j)) hn)

/-- The rounding step of `roundNearestEven`: when the exponent of `a / b` is at
most `E <= 52`, the result is `m * 2 ^ (-σ)` with `52 - E <= σ`, where `m` is
the integer part of `a * 2 ^ σ / b` or its successor and exceeds the exact
quotient by at most one half. -/
theorem roundNearestEven_bounds (a b : Nat) (ha : 0 < a) (E : Nat)
    (hE : log2Floor a ≤ log2Floor b + E) (hE52 : E ≤ 52) :
    ∃ σ : Nat, 52 - E ≤ σ ∧ (roundNearestEven a b).2 = -(σ : Int) ∧
      a * 2 ^ σ / b ≤ (roundNearestEven a b).1 ∧
      2 * ((roundNearestEven a b).1 * b) ≤ 2 * (a * 2 ^ σ) + b := by
  have ha0 : a ≠ 0 := Nat.pos_iff_ne_zero.mp ha
  obtain ⟨e, he, hres⟩ : ∃ e : Int, e ≤ (E : Int) ∧ roundNearestEven a b =
      (if b * 2 ^ (-(52 - e)).toNat <
            2 * (a * 2 ^ (52 - e).toNat % (b * 2 ^ (-(52 - e)).toNat)) ∨
          (2 * (a * 2 ^ (52 - e).toNat % (b * 2 ^ (-(52 - e)).toNat)) =
              b * 2 ^ (-(52 - e)).toNat ∧
            a * 2 ^ (52 - e).toNat / (b * 2 ^ (-(52 - e)).toNat) % 2 = 1)
        then a * 2 ^ (52 - e).toNat / (b * 2 ^ (-(52 - e)).toNat) + 1
        else a * 2 ^ (52 - e).toNat / (b * 2 ^ (-(52 - e)).toNat), -(52 - e)) := by
    refine ⟨if a * 2 ^ (-((log2Floor a : Int) - (log2Floor b : Int))).toNat <
        b * 2 ^ ((log2Floor a : Int) - (log2Floor b : Int)).toNat
      then (log2Floor a : Int) - (log2Floor b : Int) - 1
      else (log2Floor a : Int) - (log2Floor b : Int), ?_, ?_⟩
    · split <;> omega
    · simp only [roundNearestEven, ha0, if_false]
  obtain ⟨σ, hσ⟩ : ∃ σ : Nat, (σ : Int) = 52 - e := ⟨(52 - e).toNat, Int.toNat_of_nonneg (by omega)⟩
  have h1 : (52 - e).toNat = σ := by omega
  have h2 : (-(52 - e)).toNat = 0 := by omega
  rw [h1, h2] at hres
  simp only [Nat.pow_zero, Nat.mul_one] at hres
  refine ⟨σ, by omega, ?_, ?_, ?_⟩
  · rw [hres]; simp only []; omega
  · rw [hres]
    simp only []
    split
    · exact Nat.le_succ _
    · exact Nat.le_refl _
  · rw [hres]
    simp only []
    have hdm := Nat.div_add_mod (a * 2 ^ σ) b
    generalize a * 2 ^ σ = num at hdm ⊢
    generalize hq : num / b = q at hdm ⊢
    generalize hr : num % b = r at hdm ⊢
    split
    · rename_i hc
      have hrb : b ≤ 2 * r := by
        rcases hc with hc | hc
        · omega
        · omega
      have : (q + 1) * b = b * q + b := by ring
      rw [this]
      omega
    · have : q * b = b * q := Nat.mul_comm q b
      rw [this]
      omega

/-- The quotient `nsec / 1e9` of a sub-second part, rounded to float64, stays
below `1 - 2 ^ (-30)`. -/
theorem fraction_bound (nsec : Nat) (h0 : 0 < nsec) (h : nsec < 1000000000) :
    ∃ k fm : Nat, roundNearestEven nsec 1000000000 = (fm, -(k : Int)) ∧ 1 ≤ k ∧
      2 ^ 30 * fm + 2 ^ k + 1 ≤ 2 ^ 30 * 2 ^ k := by
  have hlog : log2Floor nsec ≤ log2Floor 1000000000 + 0 := by
    have h1 : log2Floor nsec ≤ 29 := log2Floor_le nsec 29 (by norm_num; omega)
    have h2 : 29 ≤ log2Floor 1000000000 := le_log2Floor 1000000000 29 (by norm_num)
    omega
  obtain ⟨k, hk, hexp, -, hup⟩ := roundNearestEven_bounds nsec 1000000000 h0 0 hlog (by decide)
  refine ⟨k, (roundNearestEven nsec 1000000000).1, ?_, by omega, ?_⟩
  · rw [← hexp]
  · have hP : 2 ^ 52 ≤ 2 ^ k := Nat.pow_le_pow_right (by decide) (by omega)
    have hmul : nsec * 2 ^ k + 2 ^ k ≤ 1000000000 * 2 ^ k := by
      have : (nsec + 1) * 2 ^ k ≤ 1000000000 * 2 ^ k := Nat.mul_le_mul_right _ (by omega)
      rw [Nat.add_mul, Nat.one_mul] at this
      exact this
    generalize (roundNearestEven nsec 1000000000).1 = fm at hup ⊢
    generalize nsec * 2 ^ k = x at hup hmul
    generalize 2 ^ k = P at hP hmul ⊢
    norm_num at hP ⊢
    omega

/-- The float64 sum `sec + f` of whole seconds below `2 ^ 24` and a fraction
`f = fm / 2 ^ k` below `1 - 2 ^ (-30)` truncates to `sec`. -/
theorem sum_truncates (sec fm k : Nat) (hsec : sec < 2 ^ 24)
    (hfm : 2 ^ 30 * fm + 2 ^ k + 1 ≤ 2 ^ 30 * 2 ^ k) :
    (roundNearestEven (sec * 2 ^ k + fm) (2 ^ k)).1 *
        2 ^ (roundNearestEven (sec * 2 ^ k + fm) (2 ^ k)).2.toNat /
        2 ^ (-(roundNearestEven (sec * 2 ^ k + fm) (2 ^ k)).2).toNat = sec := by
  have hPpos : 0 < 2 ^ k := Nat.two_pow_pos _
  by_cases hA : sec * 2 ^ k + fm = 0
  · have hs : sec = 0 := by
      rcases Nat.eq_zero_or_pos sec with h | h
      · exact h
      · have := Nat.mul_pos h hPpos
        omega
    rw [hA, hs]
    simp [roundNearestEven]
  · have hApos : 0 < sec * 2 ^ k + fm := Nat.pos_of_ne_zero hA
    have hfmlt : fm < 2 ^ k := by
      generalize 2 ^ k = P at hfm
      norm_num at hfm
      omega
    have hAlt : sec * 2 ^ k + fm < 2 ^ (k + 23 + 1) := by
      have h1 : (sec + 1) * 2 ^ k ≤ 2 ^ 24 * 2 ^ k := Nat.mul_le_mul_right _ (by omega)
      have h2 : 2 ^ (k + 23 + 1) = 2 ^ 24 * 2 ^ k := by
        rw [show k + 23 + 1 = 24 + k by omega, Nat.pow_add]
      rw [h2]
      rw [Nat.add_mul, Nat.one_mul] at h1
      omega
    have hlog : log2Floor (sec * 2 ^ k + fm) ≤ log2Floor (2 ^ k) + 23 := by
      have h1 := log2Floor_le _ (k + 23) hAlt
      have h2 := le_log2Floor (2 ^ k) k (Nat.le_refl _)
      omega
    obtain ⟨σ, hσ, hexp, hlo, hup⟩ :=
      roundNearestEven_bounds (sec * 2 ^ k + fm) (2 ^ k) hApos 23 hlog (by decide)
    rw [hexp]
    generalize (roundNearestEven (sec * 2 ^ k + fm) (2 ^ k)).1 = m at hlo hup ⊢
    have he1 : (-(σ : Int)).toNat = 0 := Int.toNat_neg_nat σ
    have he2 : (- -(σ : Int)).toNat = σ := by simp
    rw [he1, he2, Nat.pow_zero, Nat.mul_one]
    have hQ : 2 ^ 29 ≤ 2 ^ σ := Nat.pow_le_pow_right (by decide) (by omega)
    have hQpos : 0 < 2 ^ σ := Nat.two_pow_pos _
    apply Nat.div_eq_of_lt_le
    · refine Nat.le_trans ?_ hlo
      rw [Nat.le_div_iff_mul_le hPpos]
      calc sec * 2 ^ σ * 2 ^ k = sec * 2 ^ k * 2 ^ σ := by ring
        _ ≤ (sec * 2 ^ k + fm) * 2 ^ σ := Nat.mul_le_mul_right _ (Nat.le_add_right _ _)
    · by_contra hcon
      have hm : (sec + 1) * 2 ^ σ ≤ m := Nat.le_of_not_lt hcon
      have hmP : (sec + 1) * 2 ^ σ * 2 ^ k ≤ m * 2 ^ k := Nat.mul_le_mul_right _ hm
      have hQP : 2 ^ 29 * 2 ^ k ≤ 2 ^ σ * 2 ^ k := Nat.mul_le_mul_right _ hQ
      have hfQ : (2 ^ 30 * fm + 2 ^ k + 1) * 2 ^ σ ≤ 2 ^ 30 * 2 ^ k * 2 ^ σ :=
        Nat.mul_le_mul_right _ hfm
      generalize 2 ^ k = P at *
      generalize 2 ^ σ = Q at *
      nlinarith [hmP, hQP, hfQ, hup, hQpos]

/-- For an interval of `D` nanoseconds below `2 ^ 24` seconds,
`int(d.Seconds())` is the number of whole seconds of the interval. -/
theorem seconds_toInt (D : Nat) (hD : D < 16777216 * 1000000000) :
    (Duration.Seconds (D : Int)).toInt = ((D / 1000000000 : Nat) : Int) := by
  have hsec : D / 1000000000 < 2 ^ 24 := by
    rw [Nat.div_lt_iff_lt_mul (by decide)]
    norm_num
    omega
  have hnsec : D % 1000000000 < 1000000000 := Nat.mod_lt _ (by decide)
  have hneg : decide ((D : Int) < 0) = false := by
    simp
  have htdiv : (D : Int).tdiv 1000000000 = ((D / 1000000000 : Nat) : Int) := rfl
  have htmod : (D : Int).tmod 1000000000 = ((D % 1000000000 : Nat) : Int) := rfl
  simp only [Duration.Seconds, F64.toInt, hneg, htdiv, htmod, Int.natAbs_ofNat,
    Bool.false_eq_true, if_false]
  congr 1
  rcases Nat.eq_zero_or_pos (D % 1000000000) with h0 | h0
  · rw [h0]
    have hf : roundNearestEven 0 1000000000 = (0, 0) := rfl
    rw [hf]
    simpa using sum_truncates (D / 1000000000) 0 0 hsec (by decide)
  · obtain ⟨k, fm, hf, hk, hfm⟩ := fraction_bound (D % 1000000000) h0 hnsec
    rw [hf]
    have he1 : (-(k : Int)).toNat = 0 := Int.toNat_neg_nat k
    have he2 : (- -(k : Int)).toNat = k := by simp
    simp only [he1, he2, Nat.pow_zero, Nat.mul_one]
    exact sum_truncates (D / 1000000000) fm k hsec hfm

/-- C12 (as amended): for every interval `d` with `0 <= d < 2 ^ 24` seconds and
`n` its whole seconds, when both columns resolve, the back-off filter binds the
statuses Ready, ReconcileErrorRetryable and DeleteErrorRetryable in that order
and the interval `<n> SECOND` on Postgres (text ending in
`<= NOW() - INTERVAL :rifInterval`) and `-<n> SECONDS` on SQLite (text ending
in `<= DATETIME('now', @rifInterval)`). -/
theorem reconcileInterval_whole_seconds (d : Int) (statusColHdr : ColumnHandler) (S C : String)
    (hd0 : 0 ≤ d) (hd : d < 16777216 * 1000000000)
    (hS : statusColHdr StatusColumnName = Except.ok S)
    (hC : statusColHdr StatusCreatedAtColumnName = Except.ok C) :
    ({ reconcileInterval := d } : reconcileIntervalFilter).Filter DbType.Postgres statusColHdr =
      ({ sql := S ++
           " IN (:rifCSR, :rifCSRER, :rifCSDER) AND :rifCN <= NOW() - INTERVAL :rifInterval"
         args := [
           Value.named "rifCSR" (Value.status ClusterStatus.Ready),
           Value.named "rifCSRER" (Value.status ClusterStatus.ReconcileErrorRetryable),
           Value.named "rifCSDER" (Value.status ClusterStatus.DeleteErrorRetryable),
           Value.named "rifCN" (Value.str C),
           Value.named "rifInterval" (Value.str (itoa (d / 1000000000) ++ " SECOND"))] },
       none) ∧
    ({ reconcileInterval := d } : reconcileIntervalFilter).Filter DbType.SQLite statusColHdr =
      ({ sql := S ++
           " IN (@rifCSR, @rifCSRER, @rifCSDER) AND @rifCN <= DATETIME('now', @rifInterval)"
         args := [
           Value.named "rifCSR" (Value.status ClusterStatus.Ready),
           Value.named "rifCSRER" (Value.status ClusterStatus.ReconcileErrorRetryable),
           Value.named "rifCSDER" (Value.status ClusterStatus.DeleteErrorRetryable),
           Value.named "rifCN" (Value.str C),
           Value.named "rifInterval"
             (Value.str ("-" ++ itoa (d / 1000000000) ++ " SECONDS"))] },
       none) := by
  obtain ⟨D, rfl⟩ := Int.eq_ofNat_of_zero_le hd0
  have hD : D < 16777216 * 1000000000 := by exact_mod_cast hd
  have hsecs : (Duration.Seconds (D : Int)).toInt = (D : Int) / 1000000000 := by
    rw [seconds_toInt D hD]
    exact Int.ofNat_ediv D 1000000000
  simp only [reconcileIntervalFilter.Filter, hS, hC, hsecs, sqlNamed, and_self]

/-- Witness of C12 (as amended): an interval of 90.5 seconds is bound as
`90 SECOND` on Postgres and as `-90 SECONDS` on SQLite. -/
theorem reconcileInterval_whole_seconds_witness :
    ({ reconcileInterval := 90500000000 } : reconcileIntervalFilter).Filter DbType.Postgres
        (fun c => Except.ok c) =
      ({ sql := "Status" ++
           " IN (:rifCSR, :rifCSRER, :rifCSDER) AND :rifCN <= NOW() - INTERVAL :rifInterval"
         args := [
           Value.named "rifCSR" (Value.status ClusterStatus.Ready),
           Value.named "rifCSRER" (Value.status ClusterStatus.ReconcileErrorRetryable),
           Value.named "rifCSDER" (Value.status ClusterStatus.DeleteErrorRetryable),
           Value.named "rifCN" (Value.str "StatusCreatedAt"),
           Value.named "rifInterval" (Value.str (itoa (90500000000 / 1000000000) ++ " SECOND"))] },
       none) ∧
    ({ reconcileInterval := 90500000000 } : reconcileIntervalFilter).Filter DbType.SQLite
        (fun c => Except.ok c) =
      ({ sql := "Status" ++
           " IN (@rifCSR, @rifCSRER, @rifCSDER) AND @rifCN <= DATETIME('now', @rifInterval)"
         args := [
           Value.named "rifCSR" (Value.status ClusterStatus.Ready),
           Value.named "rifCSRER" (Value.status ClusterStatus.ReconcileErrorRetryable),
           Value.named "rifCSDER" (Value.status ClusterStatus.DeleteErrorRetryable),
           Value.named "rifCN" (Value.str "StatusCreatedAt"),
           Value.named "rifInterval"
             (Value.str ("-" ++ itoa (90500000000 / 1000000000) ++ " SECONDS"))] },
       none) :=
  reconcileInterval_whole_seconds 90500000000 (fun c => Except.ok c) "Status" "StatusCreatedAt"
    (by simp) (by simp) rfl rfl

set_option maxRecDepth 100000 in
/-- C12 (as stated) fails: for the interval of 16777216.999999999 seconds the
float64 value of `Seconds()` is 16777217, so the back-off filter binds
`16777217 SECOND` on Postgres, not the truncated `16777216 SECOND`. -/
theorem reconcileInterval_rounds_up :
    (16777216999999999 : Int) / 1000000000 = 16777216 ∧
    (({ reconcileInterval := 16777216999999999 } : reconcileIntervalFilter).Filter
        DbType.Postgres (fun c => Except.ok c)).1.args.getLast? =
      some (Value.named "rifInterval" (Value.str "16777217 SECOND")) := by
  decide

/-! ## Theorems: a failing dependency query -/

/-- C21: for every processable operation, if `GetOperations` returns the error
`e`, then `run` returns exactly `e` after that one query and the Invoker is
called zero times, for every cluster state, whether or not it has the
operation's component configured. -/
theorem query_failure_stops_worker (w : worker) (ctxErr : Nat → Option GoError)
    (clusterState : ClusterState) (op : OperationEntity) (maxOpRetries : Int) (e : GoError)
    (hproc : w.isProcessable op = true)
    (hrepo : w.reconRepo (componentsReadyQuery op) = Except.error e) :
    (w.run ctxErr clusterState op maxOpRetries).err = some (RunError.err e) ∧
    (w.run ctxErr clusterState op maxOpRetries).invokerCalls = [] ∧
    (w.run ctxErr clusterState op maxOpRetries).repoCalls = [componentsReadyQuery op] := by
  have hc : w.componentsReady op = Except.error e := by
    simp only [worker.componentsReady, hrepo]
  simp [worker.run, hproc, hc]

/-- Witness of C21: a repository that fails with `connection lost`, once with
the operation's component `istio` configured and once without it. -/
theorem query_failure_stops_worker_witness :
    (((failingRepoWorker "connection lost" 3).run (fun _ => none) (sampleCluster ["istio"])
        sampleOp 5).err = some (RunError.err "connection lost") ∧
      ((failingRepoWorker "connection lost" 3).run (fun _ => none) (sampleCluster ["istio"])
        sampleOp 5).invokerCalls = [] ∧
      ((failingRepoWorker "connection lost" 3).run (fun _ => none) (sampleCluster ["istio"])
        sampleOp 5).repoCalls = [componentsReadyQuery sampleOp]) ∧
    (((failingRepoWorker "connection lost" 3).run (fun _ => none) (sampleCluster [])
        sampleOp 5).err = some (RunError.err "connection lost") ∧
      ((failingRepoWorker "connection lost" 3).run (fun _ => none) (sampleCluster [])
        sampleOp 5).invokerCalls = [] ∧
      ((failingRepoWorker "connection lost" 3).run (fun _ => none) (sampleCluster [])
        sampleOp 5).repoCalls = [componentsReadyQuery sampleOp]) :=
  ⟨query_failure_stops_worker (failingRepoWorker "connection lost" 3) (fun _ => none)
      (sampleCluster ["istio"]) sampleOp 5 "connection lost" (by decide) rfl,
    query_failure_stops_worker (failingRepoWorker "connection lost" 3) (fun _ => none)
      (sampleCluster []) sampleOp 5 "connection lost" (by decide) rfl⟩

end Reconciler
